import Mathlib

/-!
Verification of the TheGallicWars map-tooling scripts.

Shallow embedding of the tile-record model, hex geometry, region
extraction / terrain freezing, territory resolution and scenario tile
composition, translated from `scripts/*.py`.  Python integers become
`Int` (or `Nat` for identifiers), Python's floor division `//` and the
parity bit `y & 1` are rendered with Euclidean division/mod (`Int.ediv`
/ `Int.emod`), which agree with Python's semantics for the positive
divisor 2, strings stay `String`, and output lines produced by the
scripts are modelled as lists of characters.
-/

namespace GallicWars

/-! ## Hex Geometry (`generate_scenario.py`, lines 147-159) -/

/-- `offset_to_cube` from `generate_scenario.py`:
`q = x - (y - (y & 1)) // 2; r = y; s = -q - r`.
Python's `y & 1` is the parity bit of `y` (non-negative, also for
negative `y`), i.e. `y % 2` with Euclidean mod; `//` is floor division,
which for the divisor 2 on the even number `y - (y & 1)` is exact. -/
def offset_to_cube (x y : Int) : Int × Int × Int :=
  let q := x - (y - y % 2) / 2
  let r := y
  let s := -q - r
  (q, r, s)

/-- `hex_distance` from `generate_scenario.py`. -/
def hex_distance (x1 y1 x2 y2 : Int) : Int :=
  let (q1, r1, s1) := offset_to_cube x1 y1
  let (q2, r2, s2) := offset_to_cube x2 y2
  max (max |q1 - q2| |r1 - r2|) |s1 - s2|

end GallicWars

namespace GallicWars

/-- C6: `offset_to_cube (x, y)` is exactly
`(x - floor(y/2), y, -(x - floor(y/2)) - y)` and the three cube
coordinates always sum to zero. -/
theorem offset_to_cube_correct (x y : Int) :
    offset_to_cube x y =
      (x - Int.fdiv y 2, y, -(x - Int.fdiv y 2) - y) ∧
    (offset_to_cube x y).1 + (offset_to_cube x y).2.1 +
      (offset_to_cube x y).2.2 = 0 := by
  have hfd : Int.fdiv y 2 = (y - y % 2) / 2 := by
    rw [Int.fdiv_eq_ediv _ (by norm_num)]
    omega
  constructor
  · simp [offset_to_cube, hfd]
  · simp [offset_to_cube]

/-- C7: `hex_distance` is symmetric in its two coordinate arguments, and
the distance from any coordinate to itself is zero. -/
theorem hex_distance_symm_refl :
    (∀ x1 y1 x2 y2 : Int, hex_distance x1 y1 x2 y2 = hex_distance x2 y2 x1 y1) ∧
    (∀ x y : Int, hex_distance x y x y = 0) := by
  constructor
  · intro x1 y1 x2 y2
    simp only [hex_distance, offset_to_cube]
    rw [abs_sub_comm, abs_sub_comm (y1 : Int) y2,
      abs_sub_comm (-(x1 - (y1 - y1 % 2) / 2) - y1)]
  · intro x y
    simp [hex_distance, offset_to_cube]

end GallicWars

namespace GallicWars

/-! ## City definitions and territory resolution
(`generate_scenario.py`, lines 39-77 and 596-613) -/

/-- `CityDef` dataclass from `generate_scenario.py`. -/
structure CityDef where
  city_id : Nat
  tile_id : Nat
  name : String
  player : Int
  family : String
  tribe : String
  is_capital : Bool
  citizens : Nat
  x : Int
  y : Int
  culture : String := "CULTURE_WEAK"
  build_queue : Option (List (String × String)) := none
  extra_territory : Option (List (Int × Int)) := none
  territory_radius : Int := 2
  territory_x_min : Option Int := none
  territory_x_max : Option Int := none
  territory_y_min : Option Int := none
  territory_y_max : Option Int := none

/-- The tile coordinate appears in the city's `extra_territory` list
(`in_extra` in `write_tile`). -/
def inExtra (c : CityDef) (x y : Int) : Bool :=
  match c.extra_territory with
  | some l => decide ((x, y) ∈ l)
  | none => false

/-- One of the city's four optional rectangular clamps rejects the tile:
the four sequential `continue` checks of `write_tile`. -/
def clampRejects (c : CityDef) (x y : Int) : Bool :=
  (match c.territory_x_min with | some m => decide (x < m) | none => false) ||
  (match c.territory_x_max with | some m => decide (x > m) | none => false) ||
  (match c.territory_y_min with | some m => decide (y < m) | none => false) ||
  (match c.territory_y_max with | some m => decide (y > m) | none => false)

/-- The territory-resolution loop of `write_tile`
(`generate_scenario.py` lines 596-613): iterate the city list; the first
player-owned city whose extra-tile grant contains the coordinate, or
whose anchor is within `territory_radius` and whose clamps all pass,
claims the tile (`break`); `continue` otherwise. -/
def territoryLoop (cities : List CityDef) (is_boundary : Bool)
    (x y : Int) : Option Nat :=
  match cities with
  | [] => none
  | c :: rest =>
    if c.player ≥ 0 ∧ is_boundary = false then
      let in_extra := inExtra c x y
      let dist := hex_distance x y c.x c.y
      if in_extra || dist ≤ c.territory_radius then
        if in_extra = false ∧ clampRejects c x y then
          territoryLoop rest is_boundary x y
        else
          some c.city_id
      else
        territoryLoop rest is_boundary x y
    else
      territoryLoop rest is_boundary x y

/-- The per-city claim predicate distilled from the loop body: a city
claims `(x, y)` when it is player-owned, the tile is not a boundary
tile, and the coordinate is either in the extra-tile grant list or
within the territory radius with every clamp satisfied. -/
def cityClaims (c : CityDef) (is_boundary : Bool) (x y : Int) : Bool :=
  decide (c.player ≥ 0) && !is_boundary &&
    (inExtra c x y ||
      (decide (hex_distance x y c.x c.y ≤ c.territory_radius) &&
        !clampRejects c x y))

/-- Helper lemma: the loop returns exactly the first city (in list
order) whose claim predicate holds. -/
theorem territoryLoop_eq_find (cities : List CityDef) (b : Bool)
    (x y : Int) :
    territoryLoop cities b x y =
      (cities.find? (fun c => cityClaims c b x y)).map (·.city_id) := by
  induction cities with
  | nil => rfl
  | cons c rest ih =>
    by_cases hclaim : cityClaims c b x y
    · have h := hclaim
      simp only [cityClaims, Bool.and_eq_true, Bool.or_eq_true,
        Bool.not_eq_true', decide_eq_true_eq] at h
      obtain ⟨⟨h1, h2⟩, h3⟩ := h
      have hfind : List.find? (fun c => cityClaims c b x y) (c :: rest)
          = some c := by
        simp [List.find?, hclaim]
      rw [hfind]
      simp only [territoryLoop, Option.map_some']
      rcases h3 with h3 | ⟨h4, h5⟩
      · simp [h1, h2, h3]
      · by_cases he : inExtra c x y
        · simp [h1, h2, he]
        · have he' : inExtra c x y = false := Bool.eq_false_iff.mpr he
          simp [h1, h2, he', h4, h5]
    · have hfind : List.find? (fun c => cityClaims c b x y) (c :: rest)
          = List.find? (fun c => cityClaims c b x y) rest := by
        simp [List.find?, Bool.eq_false_iff.mpr hclaim]
      rw [hfind, ← ih]
      simp only [territoryLoop]
      by_cases hp : c.player ≥ 0 ∧ b = false
      · obtain ⟨h1, h2⟩ := hp
        by_cases he : inExtra c x y
        · exact absurd (by simp [cityClaims, h1, h2, he]) hclaim
        · have he' : inExtra c x y = false := Bool.eq_false_iff.mpr he
          by_cases hd : hex_distance x y c.x c.y ≤ c.territory_radius
          · by_cases hc : clampRejects c x y
            · simp [h1, h2, he', hd, hc]
            · have hc' : clampRejects c x y = false := Bool.eq_false_iff.mpr hc
              exact absurd (by simp [cityClaims, h1, h2, he', hd, hc'])
                hclaim
          · simp [h1, h2, he', hd]
      · simp [hp]

/-! ## Scenario tile composition (`generate_scenario.py`, lines 96-101,
540-574 and 577-684) -/

/-- `TileData` dataclass from `generate_scenario.py`.  A field is a
`(tag, value-or-flag)` pair; `none` is a self-closing flag. -/
structure TileData where
  tile_id : Nat
  fields : List (String × Option String) := []

/-- `write_unit` from `generate_scenario.py`: the XML lines for a unit
embedded in a tile. -/
def write_unit (unit_id : Nat) (unit_type : String) : List String :=
  let seed := 58100000000000100 + unit_id
  ["    <Unit",
   "      ID=\"" ++ toString unit_id ++ "\"",
   "      Type=\"" ++ unit_type ++ "\"",
   "      Player=\"0\"",
   "      Tribe=\"NONE\"",
   "      Seed=\"" ++ toString seed ++ "\">",
   "      <CreateTurn>1</CreateTurn>",
   "      <Facing>NE</Facing>",
   "      <OriginalPlayer>0</OriginalPlayer>",
   "      <RaidTurn />",
   "      <PlayerFamily>",
   "        <P.0>FAMILY_JULIUS</P.0>",
   "      </PlayerFamily>",
   "      <QueueList />",
   "      <AI />",
   "    </Unit>"]

/-- The field-emission loop of `write_tile` (lines 627-642): walk the
frozen-terrain fields in order, overriding `CitySite` and `Terrain` on
city tiles and passing everything else through; the threaded
`Option String` state is the running `terrain_value`.  Returns the
emitted lines together with the final `terrain_value`. -/
def fieldPass (city : Option CityDef) (terrain : Option String) :
    List (String × Option String) → List String × Option String
  | [] => ([], terrain)
  | (tag, value) :: rest =>
    if city.isSome ∧ tag = "CitySite" then
      let p := fieldPass city terrain rest
      ("    <CitySite>USED</CitySite>" :: p.1, p.2)
    else if city.isSome ∧ tag = "Terrain" then
      let p := fieldPass city (some "TERRAIN_URBAN") rest
      ("    <Terrain>TERRAIN_URBAN</Terrain>" :: p.1, p.2)
    else
      let terrain' := if tag = "Terrain" then value else terrain
      let line := match value with
        | none => "    <" ++ tag ++ " />"
        | some v => "    <" ++ tag ++ ">" ++ v ++ "</" ++ tag ++ ">"
      let p := fieldPass city terrain' rest
      (line :: p.1, p.2)

/-- Revealed-state block of `write_tile` (lines 649-661). -/
def revealSeg (is_revealed is_boundary : Bool)
    (city_territory_id : Option Nat) (city : Option CityDef) :
    List String :=
  if is_revealed && !is_boundary then
    (match city_territory_id with
     | some i =>
       ["    <RevealedCityTerritory>",
        "      <Team",
        "        CityTerritory=\"" ++ toString i ++ "\">0</Team>",
        "    </RevealedCityTerritory>"]
     | none => []) ++
    ["    <Revealed>",
     "      <Team>0</Team>",
     "    </Revealed>"] ++
    (match city with
     | some c =>
       if c.player ≥ 0 then
         ["    <RevealedCity>",
          "      <Team>0</Team>",
          "    </RevealedCity>"]
       else []
     | none => [])
  else []

/-- Trailer of `write_tile` (lines 674-683): the always-present
`Religion` marker, the `RevealedTerrain` mirror (only when revealed,
non-boundary and `terrain_value` is truthy, i.e. a non-empty string),
the `RevealedTurn` placeholder and the closing tag. -/
def trailerSeg (is_revealed is_boundary : Bool)
    (terrain_value : Option String) : List String :=
  "    <Religion />" ::
  ((if is_revealed && !is_boundary then
      match terrain_value with
      | some t =>
        if t ≠ "" then
          ["    <RevealedTerrain>",
           "      <Team",
           "        Terrain=\"" ++ t ++ "\">0</Team>",
           "    </RevealedTerrain>"]
        else []
      | none => []
    else []) ++
  ["    <RevealedTurn />",
   "  </Tile>"])

/-- The `CityTerritory` tag line of `write_tile` (lines 664-665). -/
def terrSeg (city_territory_id : Option Nat) : List String :=
  match city_territory_id with
  | some i => ["    <CityTerritory>" ++ toString i ++ "</CityTerritory>"]
  | none => []

/-- The `OrigUrbanOwner` tag line of `write_tile` (lines 666-667). -/
def origSeg (city : Option CityDef) : List String :=
  match city with
  | some c =>
    if c.player ≥ 0 then
      ["    <OrigUrbanOwner>" ++ toString c.player ++ "</OrigUrbanOwner>"]
    else []
  | none => []

/-- The embedded-unit lines of `write_tile` (lines 670-672). -/
def unitSeg (units : Option (List (Nat × String))) : List String :=
  match units with
  | some us => us.flatMap (fun u => write_unit u.1 u.2)
  | none => []

/-- `city is not None and city.player >= 0`: the tile is a
player-owned city's own tile. -/
def ownedCity (city : Option CityDef) : Bool :=
  match city with
  | some c => decide (c.player ≥ 0)
  | none => false

/-- The `is_revealed` flag of `write_tile` (line 593): the tile hosts a
unit or is a player-owned city tile. -/
def isRevealed (has_units : Bool) (city : Option CityDef) : Bool :=
  has_units || ownedCity city

/-- `write_tile` from `generate_scenario.py` (lines 577-684): the XML
lines for one composed scenario tile.  Python dicts (`unit_map`,
`city_map`) are modelled as association lists looked up with
`List.lookup`. -/
def write_tile (tile_id : Nat) (tile : TileData) (is_boundary : Bool)
    (width : Nat) (cities : List CityDef)
    (unit_map : List (Nat × List (Nat × String)))
    (city_map : List (Nat × CityDef)) : List String :=
  let new_x : Int := (tile_id % width : Nat)
  let new_y : Int := (tile_id / width : Nat)
  let city := city_map.lookup tile_id
  let has_units := (unit_map.lookup tile_id).isSome
  let is_revealed := isRevealed has_units city
  let city_territory_id := territoryLoop cities is_boundary new_x new_y
  let fp := fieldPass city none tile.fields
  let source_has_citysite := tile.fields.any (fun fv => fv.1 = "CitySite")
  ["  <Tile", "    ID=\"" ++ toString tile_id ++ "\">"] ++
  (if is_boundary then ["    <Boundary />"] else []) ++
  fp.1 ++
  (if city.isSome ∧ ¬source_has_citysite then
     ["    <CitySite>USED</CitySite>"]
   else []) ++
  revealSeg is_revealed is_boundary city_territory_id city ++
  terrSeg city_territory_id ++
  origSeg city ++
  unitSeg (unit_map.lookup tile_id) ++
  trailerSeg is_revealed is_boundary fp.2

/-! ## Character-level line analysis helpers -/

/-- A word character in the sense of the regex `\w` (ASCII range, which
is all the tile documents use): letter, digit or underscore. -/
def wordChar (c : Char) : Bool := c.isAlpha || c.isDigit || c = '_'

/-- The serialized prefix that identifies a `CityTerritory` tag line. -/
def ctPat : List Char := "    <CityTerritory>".data

/-- A line carries the tile's `CityTerritory` tag iff it starts with
`    <CityTerritory>`. -/
def isCTLine (s : String) : Bool := ctPat.isPrefixOf s.data

lemma string_ext (s t : String) (h : s.data = t.data) : s = t := by
  cases s; cases t; simp_all

lemma isPrefixOf_append_self (p r : List Char) :
    p.isPrefixOf (p ++ r) = true := by
  induction p with
  | nil => simp [List.isPrefixOf]
  | cons a p ih => simp [List.isPrefixOf, ih]

/-- Tokenization: if a word-run-then-delimiter pattern `w ++ p` is a
prefix of a word-run-then-delimiter text `t ++ r`, the word runs agree
and the pattern tail is a prefix of the text tail. -/
lemma wordrun_pfx (w t p r : List Char)
    (hw : ∀ c ∈ w, wordChar c = true)
    (ht : ∀ c ∈ t, wordChar c = true)
    (hp : ∀ c, p.head? = some c → wordChar c = false)
    (hr : ∀ c, r.head? = some c → wordChar c = false)
    (hpne : p ≠ [])
    (h : (w ++ p).isPrefixOf (t ++ r) = true) :
    t = w ∧ p.isPrefixOf r = true := by
  induction w generalizing t with
  | nil =>
    cases t with
    | nil => exact ⟨rfl, by simpa using h⟩
    | cons c t' =>
      cases p with
      | nil => exact absurd rfl hpne
      | cons ph pt =>
        simp only [List.nil_append, List.cons_append, List.isPrefixOf,
          Bool.and_eq_true, beq_iff_eq] at h
        have h1 := hp ph rfl
        have h2 := ht c (by simp)
        rw [h.1] at h1
        rw [h1] at h2
        exact absurd h2 (by simp)
  | cons a w' ih =>
    cases t with
    | nil =>
      cases r with
      | nil => simp [List.isPrefixOf] at h
      | cons rh rt =>
        simp only [List.cons_append, List.nil_append, List.isPrefixOf,
          Bool.and_eq_true, beq_iff_eq] at h
        have h1 := hw a (by simp)
        have h2 := hr rh rfl
        rw [h.1] at h1
        rw [h1] at h2
        exact absurd h2 (by simp)
    | cons c t' =>
      simp only [List.cons_append, List.isPrefixOf, Bool.and_eq_true,
        beq_iff_eq] at h
      have hrec := ih t' (fun c hc => hw c (List.mem_cons_of_mem a hc))
        (fun c hc => ht c (List.mem_cons_of_mem _ hc)) h.2
      exact ⟨by rw [hrec.1, h.1], hrec.2⟩

lemma isCTLine_flag (t : String)
    (ht : ∀ c ∈ t.data, wordChar c = true) :
    isCTLine ("    <" ++ t ++ " />") = false := by
  have hdata : ("    <" ++ t ++ " />").data
      = ' ' :: ' ' :: ' ' :: ' ' :: '<' :: (t.data ++ [' ', '/', '>']) := by
    simp [String.data_append]
  by_contra hcon
  simp only [isCTLine, ctPat, hdata] at hcon
  have h : (['C', 'i', 't', 'y', 'T', 'e', 'r', 'r', 'i', 't', 'o', 'r',
      'y'] ++ ['>']).isPrefixOf (t.data ++ [' ', '/', '>']) = true := by
    rw [Bool.not_eq_false] at hcon
    simpa [List.isPrefixOf] using hcon
  have hw := wordrun_pfx _ t.data ['>'] [' ', '/', '>'] (by decide) ht
    (by intro c hc; simp at hc; subst hc; decide)
    (by intro c hc; simp at hc; subst hc; decide) (by simp) h
  simpa using hw.2

lemma isCTLine_valued (t v : String)
    (ht : ∀ c ∈ t.data, wordChar c = true)
    (hne : t ≠ "CityTerritory") :
    isCTLine ("    <" ++ t ++ ">" ++ v ++ "</" ++ t ++ ">") = false := by
  have hdata : ("    <" ++ t ++ ">" ++ v ++ "</" ++ t ++ ">").data
      = ' ' :: ' ' :: ' ' :: ' ' :: '<' ::
        (t.data ++ ('>' :: (v.data ++ '<' :: '/' :: (t.data ++ ['>'])))) := by
    simp [String.data_append]
  by_contra hcon
  simp only [isCTLine, ctPat, hdata] at hcon
  have h : (['C', 'i', 't', 'y', 'T', 'e', 'r', 'r', 'i', 't', 'o', 'r',
      'y'] ++ ['>']).isPrefixOf
      (t.data ++ ('>' :: (v.data ++ '<' :: '/' :: (t.data ++ ['>']))))
      = true := by
    rw [Bool.not_eq_false] at hcon
    simpa [List.isPrefixOf] using hcon
  have hw := wordrun_pfx _ t.data ['>'] _ (by decide) ht
    (by intro c hc; simp at hc; subst hc; decide)
    (by intro c hc; simp at hc; subst hc; decide) (by simp) h
  exact hne (by
    cases t
    exact string_ext _ _ (by simpa using hw.1))

lemma isCTLine_cityTerritory (s : String) :
    isCTLine ("    <CityTerritory>" ++ s ++ "</CityTerritory>") = true := by
  have hd : ("    <CityTerritory>" ++ s ++ "</CityTerritory>").data
      = ctPat ++ (s.data ++ "</CityTerritory>".data) := by
    simp [ctPat, String.data_append]
  simp only [isCTLine, hd, isPrefixOf_append_self]

lemma countP_ct_fieldPass (city : Option CityDef) (terrain : Option String)
    (fields : List (String × Option String))
    (hf : ∀ fv ∈ fields, (∀ c ∈ (fv.1 : String).data, wordChar c = true) ∧
      fv.1 ≠ "CityTerritory") :
    (fieldPass city terrain fields).1.countP isCTLine = 0 := by
  induction fields generalizing terrain with
  | nil => simp [fieldPass]
  | cons fv rest ih =>
    obtain ⟨tag, value⟩ := fv
    have hhd := hf (tag, value) (by simp)
    have hrest := fun fv h => hf fv (List.mem_cons_of_mem _ h)
    by_cases h1 : city.isSome ∧ tag = "CitySite"
    · have : isCTLine "    <CitySite>USED</CitySite>" = false := by decide
      simp [fieldPass, h1, List.countP_cons, this, ih _ hrest]
    · by_cases h2 : city.isSome ∧ tag = "Terrain"
      · have : isCTLine "    <Terrain>TERRAIN_URBAN</Terrain>" = false := by
          decide
        simp [fieldPass, h1, h2, List.countP_cons, this, ih _ hrest]
      · cases value with
        | none =>
          simp [fieldPass, h1, h2, List.countP_cons,
            isCTLine_flag tag hhd.1, ih _ hrest]
        | some v =>
          simp [fieldPass, h1, h2, List.countP_cons,
            isCTLine_valued tag v hhd.1 hhd.2, ih _ hrest]

lemma countP_ct_revealSeg (is_revealed is_boundary : Bool)
    (ct : Option Nat) (city : Option CityDef) :
    (revealSeg is_revealed is_boundary ct city).countP isCTLine = 0 := by
  unfold revealSeg
  by_cases h : (is_revealed && !is_boundary) = true
  · cases ct with
    | none =>
      cases city with
      | none => simp [h, List.countP_cons, isCTLine, ctPat, List.isPrefixOf]
      | some c =>
        by_cases hp : c.player ≥ 0 <;>
          simp [h, hp, List.countP_cons, isCTLine, ctPat, List.isPrefixOf]
    | some i =>
      cases city with
      | none =>
        simp [h, List.countP_cons, isCTLine, ctPat, String.data_append,
          List.isPrefixOf]
      | some c =>
        by_cases hp : c.player ≥ 0 <;>
          simp [h, hp, List.countP_cons, isCTLine, ctPat,
            String.data_append, List.isPrefixOf]
  · simp [h]

lemma countP_ct_write_unit (i : Nat) (ty : String) :
    (write_unit i ty).countP isCTLine = 0 := by
  simp [write_unit, List.countP_cons, isCTLine, ctPat, String.data_append,
    List.isPrefixOf]

lemma countP_ct_units (us : List (Nat × String)) :
    (us.flatMap (fun u => write_unit u.1 u.2)).countP isCTLine = 0 := by
  induction us with
  | nil => simp
  | cons u rest ih =>
    simp [List.flatMap_cons, List.countP_append, countP_ct_write_unit, ih]

lemma countP_ct_trailerSeg (is_revealed is_boundary : Bool)
    (terrain : Option String) :
    (trailerSeg is_revealed is_boundary terrain).countP isCTLine = 0 := by
  unfold trailerSeg
  by_cases h : (is_revealed && !is_boundary) = true
  · cases terrain with
    | none => simp [h, List.countP_cons, isCTLine, ctPat, List.isPrefixOf]
    | some t =>
      by_cases ht : t ≠ "" <;>
        simp [h, ht, List.countP_cons, List.countP_append, isCTLine, ctPat,
          String.data_append, List.isPrefixOf]
  · simp [h, List.countP_cons, isCTLine, ctPat, List.isPrefixOf]

lemma isCT_tile1 : isCTLine "  <Tile" = false := by decide

lemma isCT_idline (s : String) :
    isCTLine ("    ID=\"" ++ s ++ "\">") = false := by
  simp [isCTLine, ctPat, String.data_append, List.isPrefixOf]

lemma isCT_boundary : isCTLine "    <Boundary />" = false := by decide

lemma isCT_citysite : isCTLine "    <CitySite>USED</CitySite>" = false := by
  decide

lemma isCT_orig (s : String) :
    isCTLine ("    <OrigUrbanOwner>" ++ s ++ "</OrigUrbanOwner>")
      = false := by
  simp [isCTLine, ctPat, String.data_append, List.isPrefixOf]

lemma countP_ct_ite (p : Prop) [Decidable p] (l1 l2 : List String)
    (h1 : l1.countP isCTLine = 0) (h2 : l2.countP isCTLine = 0) :
    (if p then l1 else l2).countP isCTLine = 0 := by
  split <;> assumption

lemma countP_ct_terrSeg (ct : Option Nat) :
    (terrSeg ct).countP isCTLine = if ct.isSome then 1 else 0 := by
  cases ct with
  | none => simp [terrSeg]
  | some i => simp [terrSeg, List.countP_cons, isCTLine_cityTerritory]

lemma countP_ct_origSeg (city : Option CityDef) :
    (origSeg city).countP isCTLine = 0 := by
  cases city with
  | none => simp [origSeg]
  | some c =>
    by_cases hp : c.player ≥ 0 <;>
      simp [origSeg, hp, List.countP_cons, isCT_orig]

lemma countP_ct_unitSeg (o : Option (List (Nat × String))) :
    (unitSeg o).countP isCTLine = 0 := by
  cases o with
  | none => simp [unitSeg]
  | some us => simp [unitSeg, countP_ct_units]

end GallicWars

namespace GallicWars

/-- C3: for every tile, the composed record carries at most one
`CityTerritory` tag; territory resolution returns the first city in
city-definition-list order whose claim predicate holds, and it is that
city's ID that is written into the `CityTerritory` tag.  (The
hypothesis states that the terrain-layer record is well formed: tags
are regex word characters and the terrain layer does not itself carry a
`CityTerritory` tag.) -/
theorem write_tile_territory_exclusive
    (tile_id : Nat) (tile : TileData) (is_boundary : Bool) (width : Nat)
    (cities : List CityDef)
    (unit_map : List (Nat × List (Nat × String)))
    (city_map : List (Nat × CityDef))
    (hf : ∀ fv ∈ tile.fields,
      (∀ c ∈ (fv.1 : String).data, wordChar c = true) ∧
        fv.1 ≠ "CityTerritory") :
    (write_tile tile_id tile is_boundary width cities unit_map
        city_map).countP isCTLine ≤ 1 ∧
    territoryLoop cities is_boundary ((tile_id % width : Nat) : Int)
        ((tile_id / width : Nat) : Int) =
      (cities.find? (fun c => cityClaims c is_boundary
        ((tile_id % width : Nat) : Int)
        ((tile_id / width : Nat) : Int))).map (fun c => c.city_id) ∧
    ∀ c, cities.find? (fun c => cityClaims c is_boundary
        ((tile_id % width : Nat) : Int)
        ((tile_id / width : Nat) : Int)) = some c →
      ("    <CityTerritory>" ++ toString c.city_id ++ "</CityTerritory>")
        ∈ write_tile tile_id tile is_boundary width cities unit_map
            city_map := by
  refine ⟨?_, territoryLoop_eq_find cities is_boundary _ _, ?_⟩
  · unfold write_tile
    simp only [List.countP_append, List.countP_cons, List.countP_nil,
      countP_ct_fieldPass _ _ _ hf, countP_ct_revealSeg,
      countP_ct_trailerSeg, countP_ct_origSeg, countP_ct_unitSeg,
      countP_ct_terrSeg, countP_ct_ite, isCT_tile1, isCT_idline,
      isCT_boundary, isCT_citysite, Bool.false_eq_true, if_false,
      if_true]
    split <;> omega
  · intro c hc
    have hloop : territoryLoop cities is_boundary
        ((tile_id % width : Nat) : Int) ((tile_id / width : Nat) : Int)
        = some c.city_id := by
      rw [territoryLoop_eq_find, hc]
      rfl
    simp only [write_tile]
    rw [hloop]
    simp [terrSeg, List.mem_append]

end GallicWars

namespace GallicWars

/-! ## Revelation-tag line analysis (for the revealed-state claims) -/

lemma isPrefixOf_refl (p : List Char) : p.isPrefixOf p = true := by
  have := isPrefixOf_append_self p []
  rw [List.append_nil] at this
  exact this

/-- If pattern `t` is not a boolean prefix of `x`, then `x ≠ t`. -/
lemma str_ne_of_not_pfx (x t : String)
    (h : t.data.isPrefixOf x.data = false) : x ≠ t := by
  intro he
  subst he
  rw [isPrefixOf_refl] at h
  exact Bool.true_eq_false.mp h

/-- A line that carries one of the three revelation markers. -/
def revealTagLine (s : String) : Prop :=
  s = "    <Revealed>" ∨ s = "    <RevealedCityTerritory>" ∨
    s = "    <RevealedCity>"

lemma not_revealTag_of_slash (s : String) (h : '/' ∈ s.data) :
    ¬ revealTagLine s := by
  rintro (rfl | rfl | rfl) <;> simp at h

lemma slash_mem_fieldPass (city : Option CityDef)
    (terrain : Option String) (fields : List (String × Option String)) :
    ∀ s ∈ (fieldPass city terrain fields).1, '/' ∈ s.data := by
  induction fields generalizing terrain with
  | nil => simp [fieldPass]
  | cons fv rest ih =>
    obtain ⟨tag, value⟩ := fv
    intro s hs
    by_cases h1 : city.isSome ∧ tag = "CitySite"
    · simp only [fieldPass, h1, if_true] at hs
      rcases List.mem_cons.mp hs with rfl | hs
      · decide
      · exact ih _ s hs
    · by_cases h2 : city.isSome ∧ tag = "Terrain"
      · simp only [fieldPass, h1, h2, if_true, if_false] at hs
        rcases List.mem_cons.mp hs with rfl | hs
        · decide
        · exact ih _ s hs
      · cases value with
        | none =>
          simp only [fieldPass, h1, h2, if_false] at hs
          rcases List.mem_cons.mp hs with rfl | hs
          · simp [String.data_append]
          · exact ih _ s hs
        | some v =>
          simp only [fieldPass, h1, h2, if_false] at hs
          rcases List.mem_cons.mp hs with rfl | hs
          · simp [String.data_append]
          · exact ih _ s hs

lemma not_revealTag_write_unit (i : Nat) (ty : String) :
    ∀ s ∈ write_unit i ty, ¬ revealTagLine s := by
  intro s hs
  simp only [write_unit, List.mem_cons, List.not_mem_nil, or_false] at hs
  rcases hs with rfl | rfl | rfl | rfl | rfl | rfl | rfl | rfl | rfl |
    rfl | rfl | rfl | rfl | rfl | rfl | rfl <;>
    rintro (h | h | h) <;>
    first
      | exact absurd h (by decide)
      | exact absurd h (str_ne_of_not_pfx _ _
          (by simp [String.data_append, List.isPrefixOf]))

lemma not_revealTag_unitSeg (o : Option (List (Nat × String))) :
    ∀ s ∈ unitSeg o, ¬ revealTagLine s := by
  cases o with
  | none => simp [unitSeg]
  | some us =>
    induction us with
    | nil => simp [unitSeg]
    | cons u rest ih =>
      intro s hs
      simp only [unitSeg, List.flatMap_cons, List.mem_append] at hs
      rcases hs with hs | hs
      · exact not_revealTag_write_unit u.1 u.2 s hs
      · exact ih s (by simpa [unitSeg] using hs)

lemma not_revealTag_terrSeg (ct : Option Nat) :
    ∀ s ∈ terrSeg ct, ¬ revealTagLine s := by
  cases ct with
  | none => simp [terrSeg]
  | some i =>
    intro s hs
    simp only [terrSeg, List.mem_cons, List.not_mem_nil, or_false] at hs
    subst hs
    rintro (h | h | h) <;>
      exact absurd h (str_ne_of_not_pfx _ _
        (by simp [String.data_append, List.isPrefixOf]))

lemma not_revealTag_origSeg (city : Option CityDef) :
    ∀ s ∈ origSeg city, ¬ revealTagLine s := by
  cases city with
  | none => simp [origSeg]
  | some c =>
    intro s hs
    by_cases hp : c.player ≥ 0
    · simp only [origSeg, hp, if_true, List.mem_cons, List.not_mem_nil,
        or_false] at hs
      subst hs
      rintro (h | h | h) <;>
        exact absurd h (str_ne_of_not_pfx _ _
          (by simp [String.data_append, List.isPrefixOf]))
    · simp [origSeg, hp] at hs

lemma not_revealTag_trailerSeg (is_revealed is_boundary : Bool)
    (terrain : Option String) :
    ∀ s ∈ trailerSeg is_revealed is_boundary terrain,
      ¬ revealTagLine s := by
  intro s hs
  unfold trailerSeg at hs
  rcases List.mem_cons.mp hs with rfl | hs
  · rintro (h | h | h) <;> exact absurd h (by decide)
  rw [List.mem_append] at hs
  rcases hs with hs | hs
  · by_cases hg : (is_revealed && !is_boundary) = true
    · rcases terrain with _ | t
      · simp [hg] at hs
      · by_cases ht : t ≠ ""
        · rw [if_pos hg] at hs
          have hs2 : s ∈ (if t ≠ "" then
              ["    <RevealedTerrain>", "      <Team",
               "        Terrain=\"" ++ t ++ "\">0</Team>",
               "    </RevealedTerrain>"] else []) := hs
          rw [if_pos ht] at hs2
          simp only [List.mem_cons, List.not_mem_nil, or_false] at hs2
          rcases hs2 with rfl | rfl | rfl | rfl <;>
            rintro (h | h | h) <;>
            first
              | exact absurd h (by decide)
              | exact absurd h (str_ne_of_not_pfx _ _
                  (by simp [String.data_append, List.isPrefixOf]))
        · simp [hg, ht] at hs
    · simp [hg] at hs
  · simp only [List.mem_cons, List.not_mem_nil, or_false] at hs
    rcases hs with rfl | rfl <;>
      rintro (h | h | h) <;> exact absurd h (by decide)

lemma not_revealTag_header (i : Nat) :
    ∀ s ∈ ["  <Tile", "    ID=\"" ++ toString i ++ "\">"],
      ¬ revealTagLine s := by
  intro s hs
  simp only [List.mem_cons, List.not_mem_nil, or_false] at hs
  rcases hs with rfl | rfl <;>
    rintro (h | h | h) <;>
    first
      | exact absurd h (by decide)
      | exact absurd h (str_ne_of_not_pfx _ _
          (by simp [String.data_append, List.isPrefixOf]))

lemma not_mem_of_all {l : List String} {x : String}
    (hall : ∀ s ∈ l, ¬ revealTagLine s) (hx : revealTagLine x) :
    x ∉ l :=
  fun hmem => hall x hmem hx

lemma not_mem_ite (p : Prop) [Decidable p] {l1 l2 : List String}
    {x : String} (h1 : x ∉ l1) (h2 : x ∉ l2) :
    x ∉ (if p then l1 else l2) := by
  split <;> assumption

lemma mem_R1_revealSeg (rev b : Bool) (ct : Option Nat)
    (city : Option CityDef) :
    ("    <Revealed>" ∈ revealSeg rev b ct city) ↔ (rev && !b) = true := by
  unfold revealSeg
  by_cases hg : (rev && !b) = true
  · rw [if_pos hg]
    simp [hg, List.mem_append]
  · rw [if_neg hg]
    simp [hg]

lemma mem_R2_revealSeg (rev b : Bool) (ct : Option Nat)
    (city : Option CityDef) :
    ("    <RevealedCityTerritory>" ∈ revealSeg rev b ct city) ↔
      ((rev && !b) = true ∧ ct.isSome = true) := by
  unfold revealSeg
  by_cases hg : (rev && !b) = true
  · rw [if_pos hg]
    rcases ct with _ | i <;> rcases city with _ | c
    · simp [hg]
    · by_cases hp : c.player ≥ 0 <;> simp [hg, hp]
    · simp [hg]
    · by_cases hp : c.player ≥ 0 <;> simp [hg, hp]
  · rw [if_neg hg]
    simp [hg]

lemma mem_R3_revealSeg (rev b : Bool) (ct : Option Nat)
    (city : Option CityDef) :
    ("    <RevealedCity>" ∈ revealSeg rev b ct city) ↔
      ((rev && !b) = true ∧ ownedCity city = true) := by
  unfold revealSeg
  by_cases hg : (rev && !b) = true
  · rw [if_pos hg]
    rcases ct with _ | i <;> rcases city with _ | c
    · simp [hg, ownedCity]
    · by_cases hp : c.player ≥ 0 <;> simp [hg, hp, ownedCity]
    · have hv : ("    <RevealedCity>" : String) ≠
          "        CityTerritory=\"" ++ toString i ++ "\">0</Team>" :=
        Ne.symm (str_ne_of_not_pfx _ _
          (by simp [String.data_append, List.isPrefixOf]))
      simp [hg, ownedCity, hv]
    · have hv : ("    <RevealedCity>" : String) ≠
          "        CityTerritory=\"" ++ toString i ++ "\">0</Team>" :=
        Ne.symm (str_ne_of_not_pfx _ _
          (by simp [String.data_append, List.isPrefixOf]))
      by_cases hp : c.player ≥ 0 <;> simp [hg, hp, ownedCity, hv]
  · rw [if_neg hg]
    simp [hg]

/-- Shared step: a revelation-marker line occurs in the composed tile
iff it occurs in the revealed-state block. -/
lemma revealTag_mem_write_tile (tile_id : Nat) (tile : TileData)
    (is_boundary : Bool) (width : Nat) (cities : List CityDef)
    (unit_map : List (Nat × List (Nat × String)))
    (city_map : List (Nat × CityDef)) (x : String)
    (hx : revealTagLine x) :
    (x ∈ write_tile tile_id tile is_boundary width cities unit_map
        city_map) ↔
      x ∈ revealSeg
        (isRevealed (List.lookup tile_id unit_map).isSome
          (List.lookup tile_id city_map))
        is_boundary
        (territoryLoop cities is_boundary ((tile_id % width : Nat) : Int)
          ((tile_id / width : Nat) : Int))
        (List.lookup tile_id city_map) := by
  have hhd : x ∉ ["  <Tile", "    ID=\"" ++ toString tile_id ++ "\">"] :=
    not_mem_of_all (not_revealTag_header tile_id) hx
  have hbl : x ∉ ["    <Boundary />"] :=
    not_mem_of_all (by
      intro s hs
      simp only [List.mem_cons, List.not_mem_nil, or_false] at hs
      subst hs
      rintro (h | h | h) <;> exact absurd h (by decide)) hx
  have hcs : x ∉ ["    <CitySite>USED</CitySite>"] :=
    not_mem_of_all (by
      intro s hs
      simp only [List.mem_cons, List.not_mem_nil, or_false] at hs
      subst hs
      rintro (h | h | h) <;> exact absurd h (by decide)) hx
  have hfp : x ∉ (fieldPass (List.lookup tile_id city_map) none
      tile.fields).1 :=
    not_mem_of_all
      (fun s hs => not_revealTag_of_slash s
        (slash_mem_fieldPass _ _ _ s hs)) hx
  have hterr : x ∉ terrSeg (territoryLoop cities is_boundary
      ((tile_id % width : Nat) : Int) ((tile_id / width : Nat) : Int)) :=
    not_mem_of_all (not_revealTag_terrSeg _) hx
  have horig : x ∉ origSeg (List.lookup tile_id city_map) :=
    not_mem_of_all (not_revealTag_origSeg _) hx
  have hunit : x ∉ unitSeg (List.lookup tile_id unit_map) :=
    not_mem_of_all (not_revealTag_unitSeg _) hx
  have htr : x ∉ trailerSeg
      (isRevealed (List.lookup tile_id unit_map).isSome
        (List.lookup tile_id city_map)) is_boundary
      (fieldPass (List.lookup tile_id city_map) none tile.fields).2 :=
    not_mem_of_all (not_revealTag_trailerSeg _ _ _) hx
  simp only [write_tile, List.mem_append, hhd, hfp, hterr, horig, hunit,
    htr, not_mem_ite _ hbl (List.not_mem_nil x),
    not_mem_ite _ hcs (List.not_mem_nil x), false_or, or_false]

end GallicWars

namespace GallicWars

/-- Concrete inputs witnessing the territory-exclusivity theorem:
Narbo-like city at `(6, 4)` on a width-23 grid, tile 98. -/
def cityW3 : CityDef :=
  { city_id := 0, tile_id := 98, name := "Narbo", player := 0,
    family := "FAMILY_JULIUS", tribe := "NONE", is_capital := true,
    citizens := 3, x := 6, y := 4 }

def tileW3 : TileData :=
  { tile_id := 98, fields := [("Terrain", some "TERRAIN_TEMPERATE")] }

theorem write_tile_territory_exclusive_witness :
    (∀ fv ∈ tileW3.fields,
      (∀ c ∈ (fv.1 : String).data, wordChar c = true) ∧
        fv.1 ≠ "CityTerritory") ∧
    ((write_tile 98 tileW3 false 23 [cityW3] [] [(98, cityW3)]).countP
        isCTLine ≤ 1 ∧
      territoryLoop [cityW3] false ((98 % 23 : Nat) : Int)
          ((98 / 23 : Nat) : Int) =
        (([cityW3].find? (fun c => cityClaims c false
          ((98 % 23 : Nat) : Int)
          ((98 / 23 : Nat) : Int))).map (fun c => c.city_id)) ∧
      ∀ c, [cityW3].find? (fun c => cityClaims c false
          ((98 % 23 : Nat) : Int) ((98 / 23 : Nat) : Int)) = some c →
        ("    <CityTerritory>" ++ toString c.city_id ++ "</CityTerritory>")
          ∈ write_tile 98 tileW3 false 23 [cityW3] [] [(98, cityW3)]) :=
  ⟨by decide,
   write_tile_territory_exclusive 98 tileW3 false 23 [cityW3] []
     [(98, cityW3)] (by decide)⟩

/-- C4 (amended): the composed record carries the `Revealed` marker iff
the tile is NOT a boundary tile and it hosts a unit placement or is a
player-owned city's own tile; it carries `RevealedCityTerritory`
exactly when additionally a territory claim was resolved, and
`RevealedCity` exactly when additionally it is itself a player-owned
city tile. -/
theorem write_tile_revealed_iff
    (tile_id : Nat) (tile : TileData) (is_boundary : Bool) (width : Nat)
    (cities : List CityDef)
    (unit_map : List (Nat × List (Nat × String)))
    (city_map : List (Nat × CityDef)) :
    (("    <Revealed>" ∈ write_tile tile_id tile is_boundary width cities
        unit_map city_map) ↔
      (isRevealed (List.lookup tile_id unit_map).isSome
          (List.lookup tile_id city_map) && !is_boundary) = true) ∧
    (("    <RevealedCityTerritory>" ∈ write_tile tile_id tile is_boundary
        width cities unit_map city_map) ↔
      ((isRevealed (List.lookup tile_id unit_map).isSome
          (List.lookup tile_id city_map) && !is_boundary) = true ∧
        (territoryLoop cities is_boundary ((tile_id % width : Nat) : Int)
          ((tile_id / width : Nat) : Int)).isSome = true)) ∧
    (("    <RevealedCity>" ∈ write_tile tile_id tile is_boundary width
        cities unit_map city_map) ↔
      ((isRevealed (List.lookup tile_id unit_map).isSome
          (List.lookup tile_id city_map) && !is_boundary) = true ∧
        ownedCity (List.lookup tile_id city_map) = true)) := by
  refine ⟨?_, ?_, ?_⟩
  · rw [revealTag_mem_write_tile _ _ _ _ _ _ _ _ (Or.inl rfl),
      mem_R1_revealSeg]
  · rw [revealTag_mem_write_tile _ _ _ _ _ _ _ _ (Or.inr (Or.inl rfl)),
      mem_R2_revealSeg]
  · rw [revealTag_mem_write_tile _ _ _ _ _ _ _ _ (Or.inr (Or.inr rfl)),
      mem_R3_revealSeg]

/-- C4 (counterexample to the claim as stated): a boundary tile that
hosts a unit placement does NOT receive the `Revealed` marker — the
code additionally requires the tile not to be a boundary tile, which
the claim omits. -/
theorem write_tile_revealed_counterexample :
    (List.lookup 0 [(0, [(0, "UNIT_HASTATUS")])]).isSome = true ∧
    "    <Revealed>" ∉
      write_tile 0 ⟨0, []⟩ true 23 [] [(0, [(0, "UNIT_HASTATUS")])] [] := by
  constructor
  · rfl
  · decide

/-- C8: a coordinate listed in a player-owned city's extra-territory
grant is claimed by that city even when its hex distance to the city
anchor exceeds the territory radius and a rectangular clamp would
otherwise exclude it; consequently some city claims the tile. -/
theorem extra_territory_bypasses (c : CityDef) (cities : List CityDef)
    (x y : Int)
    (hextra : inExtra c x y = true)
    (hplayer : c.player ≥ 0)
    (_hfar : c.territory_radius < hex_distance x y c.x c.y)
    (_hclamp : clampRejects c x y = true) :
    cityClaims c false x y = true ∧
    (c ∈ cities → (territoryLoop cities false x y).isSome = true) := by
  have hclaim : cityClaims c false x y = true := by
    simp [cityClaims, hextra, hplayer]
  refine ⟨hclaim, fun hmem => ?_⟩
  rw [territoryLoop_eq_find]
  have h : (List.find? (fun c => cityClaims c false x y)
      cities).isSome = true :=
    List.find?_isSome.mpr ⟨c, hmem, hclaim⟩
  rcases hfind : List.find? (fun c => cityClaims c false x y) cities
    with _ | c'
  · rw [hfind] at h
    exact absurd h (by simp)
  · simp

/-- Witness for C8 at a concrete city: anchor `(0, 0)`, radius 2, clamp
`territory_x_max = 5`, extra grant `(20, 20)` — the far, clamp-excluded
coordinate `(20, 20)` is still claimed. -/
def cityW8 : CityDef :=
  { city_id := 7, tile_id := 0, name := "W", player := 0,
    family := "FAMILY_JULIUS", tribe := "NONE", is_capital := false,
    citizens := 1, x := 0, y := 0,
    extra_territory := some [(20, 20)],
    territory_x_max := some 5 }

theorem extra_territory_bypasses_witness :
    inExtra cityW8 20 20 = true ∧
    cityW8.player ≥ 0 ∧
    cityW8.territory_radius < hex_distance 20 20 cityW8.x cityW8.y ∧
    clampRejects cityW8 20 20 = true ∧
    cityClaims cityW8 false 20 20 = true ∧
    (territoryLoop [cityW8] false 20 20).isSome = true := by
  have h := extra_territory_bypasses cityW8 [cityW8] 20 20
    (by decide) (by decide) (by decide) (by decide)
  exact ⟨by decide, by decide, by decide, by decide, h.1,
    h.2 (List.mem_singleton.mpr rfl)⟩

end GallicWars

namespace GallicWars

namespace FreezeTerrain

/-! ## Terrain freezing (`freeze_terrain.py`, lines 26-79 and 128-201) -/

def SOURCE_WIDTH : Nat := 127
def SRC_X_MIN : Nat := 20
def SRC_X_MAX : Nat := 42
def SRC_Y_MIN : Nat := 58
def SRC_Y_MAX : Nat := 86

def NEW_WIDTH : Nat := SRC_X_MAX - SRC_X_MIN + 1
def NEW_HEIGHT : Nat := SRC_Y_MAX - SRC_Y_MIN + 1

/-- Fields to drop from source tiles. -/
def DROP_FIELDS : List String :=
  ["Metadata", "TribeSite", "NationSite", "Boundary"]

/-- City sites to remove (tile ids on the new grid). -/
def REMOVE_CITY_SITES : List Nat :=
  [10 * NEW_WIDTH + 10, 18 * NEW_WIDTH + 9, 7 * NEW_WIDTH + 17,
   17 * NEW_WIDTH + 20, 23 * NEW_WIDTH + 14, 25 * NEW_WIDTH + 4,
   16 * NEW_WIDTH + 3]

/-- Pre-placed improvements: `(x, y) -> improvement_type`. -/
def PLACED_IMPROVEMENTS : List ((Nat × Nat) × String) :=
  [((7, 5), "IMPROVEMENT_GARRISON_1"),
   ((7, 2), "IMPROVEMENT_NETS"),
   ((7, 4), "IMPROVEMENT_NETS"),
   ((5, 5), "IMPROVEMENT_MINE"),
   ((6, 6), "IMPROVEMENT_MINE"),
   ((7, 6), "IMPROVEMENT_MINE"),
   ((4, 5), "IMPROVEMENT_QUARRY"),
   ((6, 3), "IMPROVEMENT_QUARRY"),
   ((5, 2), "IMPROVEMENT_QUARRY"),
   ((10, 12), "IMPROVEMENT_FARM"),
   ((11, 11), "IMPROVEMENT_FARM"),
   ((12, 11), "IMPROVEMENT_FARM"),
   ((10, 10), "IMPROVEMENT_FARM"),
   ((11, 10), "IMPROVEMENT_FARM"),
   ((12, 10), "IMPROVEMENT_FARM")]

/-- `imp_map` built inside `extract_and_transform`:
`tile_id -> improvement_type`. -/
def imp_map : List (Nat × String) :=
  PLACED_IMPROVEMENTS.map (fun e => (e.1.2 * NEW_WIDTH + e.1.1, e.2))

/-- The synthesized default open-water tile for a missing source cell. -/
def defaultFields : List (String × Option String) :=
  [("Terrain", some "TERRAIN_WATER"), ("Height", some "HEIGHT_OCEAN")]

/-- The per-field loop of `extract_and_transform` (lines 167-193): walk
the source fields in order; drop `DROP_FIELDS`; on removed city sites
drop `CitySite`/`ElementName`, substitute the queued improvement for
`IMPROVEMENT_CITY_SITE` and turn urban terrain to lush; replace any
remaining `Improvement` with the queued one; pass everything else
through.  The threaded `Option String` is the mutable `placed_imp`
(`None` once consumed); the final state is returned alongside. -/
def transformFields (is_removed_site : Bool) (placed : Option String) :
    List (String × Option String) →
      List (String × Option String) × Option String
  | [] => ([], placed)
  | (tag, value) :: rest =>
    if tag ∈ DROP_FIELDS then
      transformFields is_removed_site placed rest
    else if is_removed_site = true ∧ tag = "CitySite" then
      transformFields is_removed_site placed rest
    else if is_removed_site = true ∧ tag = "Improvement" ∧
        value = some "IMPROVEMENT_CITY_SITE" then
      match placed with
      | some imp =>
        let p := transformFields is_removed_site none rest
        (("Improvement", some imp) :: p.1, p.2)
      | none => transformFields is_removed_site placed rest
    else if is_removed_site = true ∧ tag = "ElementName" then
      transformFields is_removed_site placed rest
    else if is_removed_site = true ∧ tag = "Terrain" ∧
        value = some "TERRAIN_URBAN" then
      let p := transformFields is_removed_site placed rest
      (("Terrain", some "TERRAIN_LUSH") :: p.1, p.2)
    else if tag = "Improvement" ∧ placed.isSome = true then
      match placed with
      | some imp =>
        let p := transformFields is_removed_site none rest
        (("Improvement", some imp) :: p.1, p.2)
      | none =>
        let p := transformFields is_removed_site placed rest
        ((tag, value) :: p.1, p.2)
    else
      let p := transformFields is_removed_site placed rest
      ((tag, value) :: p.1, p.2)

/-- The whole-tile body of `extract_and_transform` for one destination
tile id: queued improvement, removed-site flag, field transformation
and the trailing `placed_imp` append when the source had no
improvement. -/
def transformTileFields (new_id : Nat)
    (fields : List (String × Option String)) :
    List (String × Option String) :=
  let placed := imp_map.lookup new_id
  let is_removed_site := decide (new_id ∈ REMOVE_CITY_SITES)
  let source_has_improvement :=
    fields.any (fun fv => fv.1 = "Improvement")
  let p := transformFields is_removed_site placed fields
  match p.2 with
  | some imp =>
    if source_has_improvement = false then
      p.1 ++ [("Improvement", some imp)]
    else p.1
  | none => p.1

/-- `extract_and_transform` from `freeze_terrain.py`: the double loop
over destination coordinates; a missing source tile becomes the default
open-water tile.  The source-map dict is modelled as a function
`tile_id -> Option fields`. -/
def extract_and_transform
    (tiles : Nat → Option (List (String × Option String))) :
    List (Nat × List (String × Option String)) :=
  (List.range NEW_HEIGHT).flatMap (fun new_y =>
    (List.range NEW_WIDTH).map (fun new_x =>
      let src_x := SRC_X_MIN + new_x
      let src_y := SRC_Y_MIN + new_y
      let src_id := src_y * SOURCE_WIDTH + src_x
      let new_id := new_y * NEW_WIDTH + new_x
      let fields := match tiles src_id with
        | some f => f
        | none => defaultFields
      (new_id, transformTileFields new_id fields)))

/-- With no queued improvement and no removed-site flag, the field loop
is a plain pass-through that only drops `DROP_FIELDS`. -/
lemma transformFields_none (fields : List (String × Option String)) :
    transformFields false none fields =
      (fields.filter (fun fv => decide (fv.1 ∉ DROP_FIELDS)), none) := by
  induction fields with
  | nil => rfl
  | cons fv rest ih =>
    obtain ⟨tag, value⟩ := fv
    by_cases hd : tag ∈ DROP_FIELDS
    · simp [transformFields, hd, List.filter_cons, ih]
    · simp [transformFields, hd, List.filter_cons, ih]

lemma drop_ne_improvement (tag : String) (hd : tag ∈ DROP_FIELDS) :
    tag ≠ "Improvement" := by
  simp only [DROP_FIELDS, List.mem_cons, List.not_mem_nil, or_false]
    at hd
  rcases hd with rfl | rfl | rfl | rfl <;> decide

/-- With a queued improvement and no removed-site flag, a record with
exactly one `Improvement` field keeps exactly one `Improvement` field,
whose value is the queued (overlay) improvement; the queued value is
consumed. -/
lemma transformFields_consume (imp : String)
    (fields : List (String × Option String))
    (hone : fields.countP (fun fv => decide (fv.1 = "Improvement")) = 1) :
    (transformFields false (some imp) fields).2 = none ∧
    (transformFields false (some imp) fields).1.countP
      (fun fv => decide (fv.1 = "Improvement")) = 1 ∧
    ∀ v, ("Improvement", v) ∈ (transformFields false (some imp) fields).1
      → v = some imp := by
  induction fields with
  | nil => simp at hone
  | cons fv rest ih =>
    obtain ⟨tag, value⟩ := fv
    by_cases hd : tag ∈ DROP_FIELDS
    · have hne := drop_ne_improvement tag hd
      have hone' : rest.countP (fun fv => decide (fv.1 = "Improvement"))
          = 1 := by
        rw [List.countP_cons] at hone
        simpa [hne] using hone
      have h := ih hone'
      simpa [transformFields, hd] using h
    · by_cases him : tag = "Improvement"
      · subst him
        have hrest : rest.countP
            (fun fv => decide (fv.1 = "Improvement")) = 0 := by
          rw [List.countP_cons] at hone
          simpa using hone
        have hnone := transformFields_none rest
        have h1 : (transformFields false (some imp)
            (("Improvement", value) :: rest)).1
            = ("Improvement", some imp) ::
              (rest.filter (fun fv => decide (fv.1 ∉ DROP_FIELDS))) := by
          simp [transformFields, hd, hnone]
        have hcf : (rest.filter
            (fun fv => decide (fv.1 ∉ DROP_FIELDS))).countP
            (fun fv => decide (fv.1 = "Improvement")) = 0 := by
          rw [List.countP_eq_zero] at hrest ⊢
          intro a ha
          exact hrest a (List.mem_of_mem_filter ha)
        refine ⟨?_, ?_, ?_⟩
        · simp [transformFields, hd, hnone]
        · rw [h1, List.countP_cons, hcf]
          norm_num
        · intro v hv
          rw [h1] at hv
          rcases List.mem_cons.mp hv with hv | hv
          · exact congrArg Prod.snd hv
          · exfalso
            have hm := List.mem_of_mem_filter hv
            have hpos : 0 < rest.countP
                (fun fv => decide (fv.1 = "Improvement")) :=
              List.countP_pos_iff.mpr ⟨("Improvement", v), hm, by simp⟩
            omega
      · have hone' : rest.countP
            (fun fv => decide (fv.1 = "Improvement")) = 1 := by
          rw [List.countP_cons] at hone
          simpa [him] using hone
        have h := ih hone'
        have h1 : (transformFields false (some imp)
            ((tag, value) :: rest)).1
            = (tag, value) ::
              (transformFields false (some imp) rest).1 := by
          simp [transformFields, hd, him]
        refine ⟨?_, ?_, ?_⟩
        · simpa [transformFields, hd, him] using h.1
        · rw [h1, List.countP_cons]
          simp [him, h.2.1]
        · intro v hv
          rw [h1] at hv
          rcases List.mem_cons.mp hv with hv | hv
          · exact absurd (congrArg Prod.fst hv).symm him
          · exact h.2.2 v hv

end FreezeTerrain

/-- C1 (amended): when an improvement overlay targets a (non-removed)
tile whose terrain record carries exactly one `Improvement` tag, the
composed record still carries exactly one `Improvement` tag, and its
value is the OVERLAY's improvement — the overlay replaces the terrain
improvement in place rather than being skipped. -/
theorem freeze_improvement_override (new_id : Nat) (imp : String)
    (fields : List (String × Option String))
    (himp : FreezeTerrain.imp_map.lookup new_id = some imp)
    (hnr : new_id ∉ FreezeTerrain.REMOVE_CITY_SITES)
    (hone : fields.countP (fun fv => decide (fv.1 = "Improvement")) = 1) :
    (FreezeTerrain.transformTileFields new_id fields).countP
        (fun fv => decide (fv.1 = "Improvement")) = 1 ∧
    ∀ v, ("Improvement", v) ∈
        FreezeTerrain.transformTileFields new_id fields →
      v = some imp := by
  have hr : decide (new_id ∈ FreezeTerrain.REMOVE_CITY_SITES) = false := by
    simp [hnr]
  have h := FreezeTerrain.transformFields_consume imp fields hone
  simp only [FreezeTerrain.transformTileFields]
  rw [himp, hr, h.1]
  exact ⟨h.2.1, h.2.2⟩

/-- A source-tiles map with one tile at source id 8028 (destination
coordinate `(7, 5)`, destination id 122) that already carries a farm
improvement; `(7, 5)` is also targeted by the
`IMPROVEMENT_GARRISON_1` overlay. -/
def tilesC1 : Nat → Option (List (String × Option String)) :=
  fun id =>
    if id = 8028 then some [("Improvement", some "IMPROVEMENT_FARM")]
    else none

/-- C1 (counterexample to the claim as stated): the composed record for
destination tile 122 carries the overlay's improvement
(`IMPROVEMENT_GARRISON_1`), not the terrain layer's
(`IMPROVEMENT_FARM`) — the overlay IS applied over an existing
improvement. -/
theorem freeze_improvement_override_counterexample :
    tilesC1 8028 = some [("Improvement", some "IMPROVEMENT_FARM")] ∧
    FreezeTerrain.imp_map.lookup 122 = some "IMPROVEMENT_GARRISON_1" ∧
    (FreezeTerrain.extract_and_transform tilesC1).lookup 122 =
      some [("Improvement", some "IMPROVEMENT_GARRISON_1")] :=
  ⟨rfl, rfl, by decide⟩

/-- Witness for the amended override theorem at the same concrete
inputs. -/
theorem freeze_improvement_override_witness :
    FreezeTerrain.imp_map.lookup 122 = some "IMPROVEMENT_GARRISON_1" ∧
    (122 : Nat) ∉ FreezeTerrain.REMOVE_CITY_SITES ∧
    ([(("Improvement" : String),
        some "IMPROVEMENT_FARM")].countP
      (fun fv => decide (fv.1 = "Improvement")) = 1) ∧
    ((FreezeTerrain.transformTileFields 122
        [("Improvement", some "IMPROVEMENT_FARM")]).countP
        (fun fv => decide (fv.1 = "Improvement")) = 1 ∧
      ∀ v, ("Improvement", v) ∈
          FreezeTerrain.transformTileFields 122
            [("Improvement", some "IMPROVEMENT_FARM")] →
        v = some "IMPROVEMENT_GARRISON_1") :=
  ⟨by decide, by decide, by decide,
   freeze_improvement_override 122 "IMPROVEMENT_GARRISON_1"
     [("Improvement", some "IMPROVEMENT_FARM")]
     (by decide) (by decide) (by decide)⟩

namespace ExtractMap

/-! ## Region extraction (`extract_map.py`, lines 31-40 and 184-216) -/

def SOURCE_WIDTH : Nat := 127
def SRC_X_MIN : Nat := 20
def SRC_X_MAX : Nat := 42
def SRC_Y_MIN : Nat := 58
def SRC_Y_MAX : Nat := 86

def NEW_WIDTH : Nat := SRC_X_MAX - SRC_X_MIN + 1
def NEW_HEIGHT : Nat := SRC_Y_MAX - SRC_Y_MIN + 1

/-- `TileData` from `extract_map.py`. -/
structure SrcTile where
  src_id : Nat
  src_x : Nat
  src_y : Nat
  fields : List (String × Option String) := []

/-- `extract_region` from `extract_map.py`: re-index the sub-rectangle,
synthesizing a default open-water tile for a missing source cell and
computing boundary membership for the outer two rings. -/
def extract_region (tiles : Nat → Option SrcTile) :
    List (Nat × SrcTile × Bool) :=
  (List.range NEW_HEIGHT).flatMap (fun new_y =>
    (List.range NEW_WIDTH).map (fun new_x =>
      let src_x := SRC_X_MIN + new_x
      let src_y := SRC_Y_MIN + new_y
      let src_id := src_y * SOURCE_WIDTH + src_x
      let new_id := new_y * NEW_WIDTH + new_x
      let tile := match tiles src_id with
        | some t => t
        | none =>
          { src_id := src_id, src_x := src_x, src_y := src_y,
            fields := [("Terrain", some "TERRAIN_WATER"),
                       ("Height", some "HEIGHT_OCEAN")] }
      let is_boundary := decide (new_x ≤ 1) ||
        decide (new_x ≥ NEW_WIDTH - 2) || decide (new_y ≤ 1) ||
        decide (new_y ≥ NEW_HEIGHT - 2)
      (new_id, tile, is_boundary)))

end ExtractMap

/-- Row-major indexing into a grid built as a `flatMap` of `map`s over
coordinate ranges: the entry at index `y * W + x` is the one generated
at coordinate `(x, y)`. -/
lemma getElem?_grid {α : Type} (W : Nat) (x : Nat) (hx : x < W) :
    ∀ (H : Nat) (g : Nat → Nat → α) (y : Nat), y < H →
      ((List.range H).flatMap (fun yy =>
        (List.range W).map (fun xx => g xx yy)))[y * W + x]? =
        some (g x y) := by
  intro H
  induction H with
  | zero => intro g y hy; omega
  | succ H ih =>
    intro g y hy
    rw [List.range_succ_eq_map, List.flatMap_cons]
    have hlen : ((List.range W).map (fun xx => g xx 0)).length = W := by
      simp
    cases y with
    | zero =>
      rw [List.getElem?_append, hlen]
      simp only [Nat.zero_mul, Nat.zero_add]
      rw [if_pos hx]
      simp [List.getElem?_range hx]
    | succ y' =>
      rw [List.getElem?_append, hlen]
      have hge : ¬ ((y' + 1) * W + x < W) := by
        have : (y' + 1) * W = y' * W + W := by ring
        omega
      rw [if_neg hge]
      have hidx : (y' + 1) * W + x - W = y' * W + x := by
        have : (y' + 1) * W = y' * W + W := by ring
        omega
      rw [hidx]
      simp only [List.flatMap_map]
      exact ih (fun xx yy => g xx (yy + 1)) y' (by omega)

/-- On the default open-water record, the freeze transformation is the
identity except that a queued improvement overlay is appended. -/
lemma transformTile_default (new_id : Nat) :
    FreezeTerrain.transformTileFields new_id FreezeTerrain.defaultFields =
      FreezeTerrain.defaultFields ++
        (match FreezeTerrain.imp_map.lookup new_id with
         | some imp => [("Improvement", some imp)]
         | none => []) := by
  rcases himp : FreezeTerrain.imp_map.lookup new_id with _ | imp <;>
    simp [FreezeTerrain.transformTileFields, himp,
      FreezeTerrain.transformFields, FreezeTerrain.defaultFields,
      FreezeTerrain.DROP_FIELDS]

/-- C5 (amended): a destination coordinate whose source tile is missing
yields, in `extract_region`, a record whose fields are exactly
`Terrain=TERRAIN_WATER, Height=HEIGHT_OCEAN`; in the freeze pass
(`extract_and_transform`), the same two fields — plus one additional
`Improvement` field exactly when an improvement overlay is queued for
that coordinate. -/
theorem extract_default (x y : Nat) (hx : x < 23) (hy : y < 29)
    (tilesR : Nat → Option ExtractMap.SrcTile)
    (tilesF : Nat → Option (List (String × Option String)))
    (hmissR : tilesR ((ExtractMap.SRC_Y_MIN + y) * ExtractMap.SOURCE_WIDTH
      + (ExtractMap.SRC_X_MIN + x)) = none)
    (hmissF : tilesF ((FreezeTerrain.SRC_Y_MIN + y) *
      FreezeTerrain.SOURCE_WIDTH + (FreezeTerrain.SRC_X_MIN + x))
      = none) :
    ((ExtractMap.extract_region tilesR)[y * ExtractMap.NEW_WIDTH + x]?).map
        (fun e => e.2.1.fields) =
      some [("Terrain", some "TERRAIN_WATER"),
            ("Height", some "HEIGHT_OCEAN")] ∧
    (FreezeTerrain.extract_and_transform
        tilesF)[y * FreezeTerrain.NEW_WIDTH + x]? =
      some (y * FreezeTerrain.NEW_WIDTH + x,
        FreezeTerrain.defaultFields ++
          (match FreezeTerrain.imp_map.lookup
              (y * FreezeTerrain.NEW_WIDTH + x) with
           | some imp => [("Improvement", some imp)]
           | none => [])) := by
  constructor
  · rw [ExtractMap.extract_region,
      getElem?_grid ExtractMap.NEW_WIDTH x hx ExtractMap.NEW_HEIGHT _ y hy]
    simp only [hmissR, Option.map_some']
  · rw [FreezeTerrain.extract_and_transform,
      getElem?_grid FreezeTerrain.NEW_WIDTH x hx
        FreezeTerrain.NEW_HEIGHT _ y hy]
    simp only [hmissF, transformTile_default]

/-- A source map with no tiles at all: every translated source
coordinate is a hole. -/
def tilesNone : Nat → Option (List (String × Option String)) :=
  fun _ => none

/-- C5 (counterexample to the claim as stated): in the freeze pass the
missing-source record at destination `(7, 5)` (id 122) is NOT exactly
`Terrain=WATER, Height=OCEAN` — the queued improvement overlay is
appended as a third field. -/
theorem extract_default_counterexample :
    tilesNone ((58 + 5) * 127 + (20 + 7)) = none ∧
    (FreezeTerrain.extract_and_transform tilesNone).lookup 122 =
      some [("Terrain", some "TERRAIN_WATER"),
            ("Height", some "HEIGHT_OCEAN"),
            ("Improvement", some "IMPROVEMENT_GARRISON_1")] :=
  ⟨rfl, by decide⟩

/-- Witness for the amended extraction-default theorem at coordinate
`(0, 0)` of the all-holes source map (no overlay is queued there, so
the freeze output is exactly the two default fields). -/
theorem extract_default_witness :
    (0 : Nat) < 23 ∧ (0 : Nat) < 29 ∧
    tilesNone ((FreezeTerrain.SRC_Y_MIN + 0) * FreezeTerrain.SOURCE_WIDTH
      + (FreezeTerrain.SRC_X_MIN + 0)) = none ∧
    ((ExtractMap.extract_region (fun _ => none))[0 * ExtractMap.NEW_WIDTH
        + 0]?).map (fun e => e.2.1.fields) =
      some [("Terrain", some "TERRAIN_WATER"),
            ("Height", some "HEIGHT_OCEAN")] ∧
    (FreezeTerrain.extract_and_transform
        tilesNone)[0 * FreezeTerrain.NEW_WIDTH + 0]? =
      some (0 * FreezeTerrain.NEW_WIDTH + 0,
        FreezeTerrain.defaultFields ++
          (match FreezeTerrain.imp_map.lookup
              (0 * FreezeTerrain.NEW_WIDTH + 0) with
           | some imp => [("Improvement", some imp)]
           | none => [])) := by
  have h := extract_default 0 0 (by decide) (by decide)
    (fun _ => none) tilesNone rfl rfl
  exact ⟨by decide, by decide, rfl, h.1, h.2⟩

namespace InsertRows

/-! ## Row insertion (`insert_rows.py`, lines 60-157 and 160-198) -/

/-- `get_field` from `insert_rows.py`: first value for a tag (a flag
yields `none`, indistinguishable from absence, as in the source). -/
def get_field (fields : List (String × Option String)) (tag : String) :
    Option String :=
  match fields with
  | [] => none
  | (t, v) :: rest => if t = tag then v else get_field rest tag

/-- Python's `x or default` on an optional string: `None` and the empty
string are both falsy. -/
def orDefault (v : Option String) (d : String) : String :=
  match v with
  | some s => if s = "" then d else s
  | none => d

def waterDefault : List (String × Option String) :=
  [("Terrain", some "TERRAIN_WATER"), ("Height", some "HEIGHT_OCEAN")]

/-- `insert_rows` from `insert_rows.py`: keep rows `0..after_row`,
synthesize `count` new rows copying terrain/height from the row above,
then shift the remaining rows down.  The `row_data` dict (last write
wins) is modelled by a reversed association-list lookup keyed by
`y * width + x`, which identifies `(x, y)` uniquely. -/
def insert_rows (width height : Nat)
    (tiles : List (Nat × List (String × Option String)))
    (after_row : Int) (count : Nat) :
    List (Nat × List (String × Option String)) :=
  let rowGet := fun (y x : Nat) => (tiles.reverse).lookup (y * width + x)
  let template := fun (x : Nat) =>
    if after_row ≥ 0 then (rowGet after_row.toNat x).getD [] else []
  let a := (after_row + 1).toNat
  ((List.range a).flatMap (fun y =>
    (List.range width).map (fun x =>
      (y * width + x, (rowGet y x).getD waterDefault)))) ++
  ((List.range count).flatMap (fun row_offset =>
    let new_y := a + row_offset
    (List.range width).map (fun x =>
      let tmp := template x
      let terrain := orDefault (get_field tmp "Terrain") "TERRAIN_LUSH"
      let height_val := orDefault (get_field tmp "Height") "HEIGHT_FLAT"
      (new_y * width + x,
        [("Terrain", some terrain), ("Height", some height_val)])))) ++
  ((List.range' a (height - a)).flatMap (fun y =>
    (List.range width).map (fun x =>
      ((y + count) * width + x, (rowGet y x).getD waterDefault))))

/-- The validation-then-transform sequence of `main` in
`insert_rows.py` (lines 182-198): each failed check reports and
returns before `insert_rows`/`write_terrain` run; `none` models "the
terrain file is not written". -/
def main (width height : Nat)
    (tiles : List (Nat × List (String × Option String)))
    (after count : Int) :
    Option (List (Nat × List (String × Option String))) :=
  if after < -1 ∨ after ≥ (height : Int) then none
  else if count < 1 then none
  else if count % 2 ≠ 0 then none
  else some (insert_rows width height tiles after count.toNat)

end InsertRows

/-- C10: an odd row-insertion count is rejected by the validation pass:
`main` returns before any transformation, and no write of the terrain
file occurs. -/
theorem insert_rows_odd_count_no_write (width height : Nat)
    (tiles : List (Nat × List (String × Option String)))
    (after count : Int) (hodd : count % 2 = 1) :
    InsertRows.main width height tiles after count = none := by
  unfold InsertRows.main
  by_cases h1 : after < -1 ∨ after ≥ (height : Int)
  · rw [if_pos h1]
  · rw [if_neg h1]
    by_cases h2 : count < 1
    · rw [if_pos h2]
    · rw [if_neg h2, if_pos (by omega)]

/-- Witness: inserting 3 rows (odd) into a 23-wide, 1-row grid writes
nothing. -/
theorem insert_rows_odd_count_no_write_witness :
    (3 : Int) % 2 = 1 ∧
    InsertRows.main 23 1 [] 0 3 = none :=
  ⟨by decide, insert_rows_odd_count_no_write 23 1 [] 0 3 (by decide)⟩

end GallicWars

namespace GallicWars

/-! ## Frozen-terrain parsing (`generate_scenario.py`, lines 103-140)

The regex passes of `parse_frozen_terrain` are embedded as
character-list scanners with the same leftmost, non-overlapping match
semantics.  The character classes `\w`, `\s` and `\d` are the ASCII
ones (all the tile documents are ASCII). -/

/-- The regex class `\s`. -/
def spaceChar (c : Char) : Bool :=
  c == ' ' || c == '\t' || c == '\n' || c == '\r' ||
    c == '\x0B' || c == '\x0C'

/-- One attempted match of `<(\w+)\s*/>` at the head of the input;
returns the tag and the suffix after the match. -/
def matchSelfClose (l : List Char) : Option (List Char × List Char) :=
  match l with
  | c :: cs =>
    if c = '<' then
      let tagRun := cs.takeWhile wordChar
      if tagRun = [] then none
      else
        match (cs.dropWhile wordChar).dropWhile spaceChar with
        | c1 :: c2 :: rest3 =>
          if c1 = '/' ∧ c2 = '>' then some (tagRun, rest3) else none
        | _ => none
    else none
  | [] => none

/-- One attempted match of `<(\w+)>([^<]*)</(\w+)>` at the head of the
input; returns the three groups and the suffix after the match. -/
def matchValued (l : List Char) :
    Option ((List Char × List Char × List Char) × List Char) :=
  match l with
  | c :: cs =>
    if c = '<' then
      let t1 := cs.takeWhile wordChar
      if t1 = [] then none
      else
        match cs.dropWhile wordChar with
        | c1 :: r2 =>
          if c1 = '>' then
            let v := r2.takeWhile (fun ch => ch ≠ '<')
            match r2.dropWhile (fun ch => ch ≠ '<') with
            | c2 :: c3 :: r4 =>
              if c2 = '<' ∧ c3 = '/' then
                let t3 := r4.takeWhile wordChar
                if t3 = [] then none
                else
                  match r4.dropWhile wordChar with
                  | c4 :: r6 =>
                    if c4 = '>' then some ((t1, v, t3), r6) else none
                  | [] => none
              else none
            | _ => none
          else none
        | [] => none
    else none
  | [] => none

/-- One attempted match of the tile-opening pattern
`<Tile\s*\n?\s*ID="(\d+)">` at the head of the input (`\s*\n?\s*`
matches exactly the same texts as `\s*`); returns the digit group and
the suffix after the match. -/
def matchTileOpen (l : List Char) : Option (List Char × List Char) :=
  if "<Tile".data.isPrefixOf l then
    let r := (l.drop 5).dropWhile spaceChar
    if "ID=\"".data.isPrefixOf r then
      let r2 := r.drop 4
      let ds := r2.takeWhile Char.isDigit
      if ds = [] then none
      else
        match r2.dropWhile Char.isDigit with
        | c1 :: c2 :: r4 =>
          if c1 = '"' ∧ c2 = '>' then some (ds, r4) else none
        | _ => none
    else none
  else none

lemma length_dropWhile_le {α : Type} (p : α → Bool) (l : List α) :
    (l.dropWhile p).length ≤ l.length :=
  (List.dropWhile_suffix p).length_le

lemma matchSelfClose_length (l : List Char) (t r : List Char)
    (h : matchSelfClose l = some (t, r)) : r.length < l.length := by
  match l with
  | [] => simp [matchSelfClose] at h
  | c :: cs =>
    simp only [matchSelfClose] at h
    by_cases hc : c = '<'
    · rw [if_pos hc] at h
      by_cases ht : cs.takeWhile wordChar = []
      · rw [if_pos ht] at h
        exact absurd h (by simp)
      · rw [if_neg ht] at h
        rcases hd : (cs.dropWhile wordChar).dropWhile spaceChar
          with _ | ⟨c1, rest⟩
        · rw [hd] at h
          exact absurd h (by simp)
        · rcases rest with _ | ⟨c2, rest3⟩
          · rw [hd] at h
            exact absurd h (by simp)
          · rw [hd] at h
            simp only [] at h
            by_cases h12 : c1 = '/' ∧ c2 = '>'
            · rw [if_pos h12] at h
              have hr : r = rest3 :=
                (by simpa using congrArg (fun o => o.map Prod.snd) h :
                  rest3 = r).symm
              have h1 : rest3.length + 2
                  ≤ (cs.dropWhile wordChar).length := by
                have := congrArg List.length hd
                have h2 := length_dropWhile_le spaceChar
                  (cs.dropWhile wordChar)
                simp at this
                omega
              have h3 := length_dropWhile_le wordChar cs
              subst hr
              simp only [List.length_cons]
              omega
            · rw [if_neg h12] at h
              exact absurd h (by simp)
    · rw [if_neg hc] at h
      exact absurd h (by simp)

lemma matchValued_length (l : List Char) (m : List Char × List Char ×
    List Char) (r : List Char)
    (h : matchValued l = some (m, r)) : r.length < l.length := by
  match l with
  | [] => simp [matchValued] at h
  | c :: cs =>
    simp only [matchValued] at h
    by_cases hc : c = '<'
    · rw [if_pos hc] at h
      by_cases ht : cs.takeWhile wordChar = []
      · rw [if_pos ht] at h
        exact absurd h (by simp)
      · rw [if_neg ht] at h
        rcases hd : cs.dropWhile wordChar with _ | ⟨c1, r2⟩
        · rw [hd] at h
          exact absurd h (by simp)
        · rw [hd] at h
          simp only [] at h
          by_cases h1 : c1 = '>'
          · rw [if_pos h1] at h
            rcases hd2 : r2.dropWhile (fun ch => ch ≠ '<')
              with _ | ⟨c2, rest⟩
            · rw [hd2] at h
              exact absurd h (by simp)
            · rcases rest with _ | ⟨c3, r4⟩
              · rw [hd2] at h
                exact absurd h (by simp)
              · rw [hd2] at h
                simp only [] at h
                by_cases h23 : c2 = '<' ∧ c3 = '/'
                · rw [if_pos h23] at h
                  by_cases ht3 : r4.takeWhile wordChar = []
                  · rw [if_pos ht3] at h
                    exact absurd h (by simp)
                  · rw [if_neg ht3] at h
                    rcases hd3 : r4.dropWhile wordChar
                      with _ | ⟨c4, r6⟩
                    · rw [hd3] at h
                      exact absurd h (by simp)
                    · rw [hd3] at h
                      simp only [] at h
                      by_cases h4 : c4 = '>'
                      · rw [if_pos h4] at h
                        have hr' : r6 = r := by
                          simpa using congrArg
                            (fun o => o.map Prod.snd) h
                        have hr : r = r6 := hr'.symm
                        subst hr
                        have e1 : r.length + 1 ≤ r4.length := by
                          have := congrArg List.length hd3
                          have := length_dropWhile_le wordChar r4
                          simp at *
                          omega
                        have e2 : r4.length + 2 ≤ r2.length := by
                          have := congrArg List.length hd2
                          have := length_dropWhile_le
                            (fun ch => ch ≠ '<') r2
                          simp at *
                          omega
                        have e3 : r2.length + 1 ≤ cs.length := by
                          have := congrArg List.length hd
                          have := length_dropWhile_le wordChar cs
                          simp at *
                          omega
                        simp only [List.length_cons]
                        omega
                      · rw [if_neg h4] at h
                        exact absurd h (by simp)
                · rw [if_neg h23] at h
                  exact absurd h (by simp)
          · rw [if_neg h1] at h
            exact absurd h (by simp)
    · rw [if_neg hc] at h
      exact absurd h (by simp)

lemma matchTileOpen_length (l : List Char) (t r : List Char)
    (h : matchTileOpen l = some (t, r)) : r.length < l.length := by
  unfold matchTileOpen at h
  by_cases hp : "<Tile".data.isPrefixOf l
  · rw [if_pos (by simp [hp])] at h
    by_cases hp2 : "ID=\"".data.isPrefixOf
        ((l.drop 5).dropWhile spaceChar)
    · rw [if_pos (by simp [hp2])] at h
      by_cases hds : (((l.drop 5).dropWhile spaceChar).drop
          4).takeWhile Char.isDigit = []
      · rw [if_pos hds] at h
        exact absurd h (by simp)
      · rw [if_neg hds] at h
        rcases hd : (((l.drop 5).dropWhile spaceChar).drop
            4).dropWhile Char.isDigit with _ | ⟨c1, rest⟩
        · rw [hd] at h
          exact absurd h (by simp)
        · rcases rest with _ | ⟨c2, r4⟩
          · rw [hd] at h
            exact absurd h (by simp)
          · rw [hd] at h
            simp only [] at h
            by_cases h12 : c1 = '"' ∧ c2 = '>'
            · rw [if_pos h12] at h
              have hr : r = r4 :=
                (by simpa using congrArg (fun o => o.map Prod.snd) h :
                  r4 = r).symm
              subst hr
              have hl5 : 5 ≤ l.length := by
                have := List.IsPrefix.length_le
                  (List.isPrefixOf_iff_prefix.mp hp)
                simpa using this
              have e1 : r.length + 2 ≤
                  (((l.drop 5).dropWhile spaceChar).drop 4).length := by
                have := congrArg List.length hd
                have := length_dropWhile_le Char.isDigit
                  (((l.drop 5).dropWhile spaceChar).drop 4)
                simp at *
                omega
              have e2 : (((l.drop 5).dropWhile spaceChar).drop
                  4).length = ((l.drop 5).dropWhile
                    spaceChar).length - 4 := by
                simp
              have e2' : ((l.drop 5).dropWhile spaceChar).length ≤
                  (l.drop 5).length :=
                length_dropWhile_le spaceChar (l.drop 5)
              have e3 : (l.drop 5).length = l.length - 5 := by simp
              omega
            · rw [if_neg h12] at h
              exact absurd h (by simp)
    · rw [if_neg (by simp [hp2])] at h
      exact absurd h (by simp)
  · rw [if_neg (by simp [hp])] at h
    exact absurd h (by simp)

/-- The first `finditer` pass of the field loop, fuelled so that the
recursion is structural (fuel `l.length` always suffices, since a match
consumes at least one character). -/
def scanSelfCloseF : Nat → List Char → List (List Char)
  | _, [] => []
  | 0, _ :: _ => []
  | fuel + 1, c :: cs =>
    match matchSelfClose (c :: cs) with
    | some (t, rest) => t :: scanSelfCloseF fuel rest
    | none => scanSelfCloseF fuel cs

/-- All non-overlapping leftmost matches of `<(\w+)\s*/>`, in textual
order. -/
def scanSelfClose (l : List Char) : List (List Char) :=
  scanSelfCloseF l.length l

/-- The second `finditer` pass, fuelled likewise. -/
def scanValuedF : Nat → List Char →
    List (List Char × List Char × List Char)
  | _, [] => []
  | 0, _ :: _ => []
  | fuel + 1, c :: cs =>
    match matchValued (c :: cs) with
    | some (m, rest) => m :: scanValuedF fuel rest
    | none => scanValuedF fuel cs

/-- All non-overlapping leftmost matches of `<(\w+)>([^<]*)</(\w+)>`,
in textual order. -/
def scanValued (l : List Char) :
    List (List Char × List Char × List Char) :=
  scanValuedF l.length l

/-- `re.split` on the tile-opening pattern, fuelled likewise. -/
def splitTilesF : Nat → List Char →
    List Char × List (List Char × List Char)
  | _, [] => ([], [])
  | 0, l => (l, [])
  | fuel + 1, c :: cs =>
    match matchTileOpen (c :: cs) with
    | some (ds, rest) =>
      let p := splitTilesF fuel rest
      ([], (ds, p.1) :: p.2)
    | none =>
      let p := splitTilesF fuel cs
      (c :: p.1, p.2)

/-- The text before the first tile-opening match, then each captured
ID-digit group with the chunk of text that follows it (up to the next
match or the end). -/
def splitTiles (l : List Char) :
    List Char × List (List Char × List Char) :=
  splitTilesF l.length l

lemma scanSelfCloseF_fuel : ∀ (f1 f2 : Nat) (l : List Char),
    l.length ≤ f1 → l.length ≤ f2 →
    scanSelfCloseF f1 l = scanSelfCloseF f2 l := by
  intro f1
  induction f1 with
  | zero =>
    intro f2 l h1 _
    match l, h1 with
    | [], _ => cases f2 <;> rfl
  | succ g1 ih =>
    intro f2 l h1 h2
    match l with
    | [] => cases f2 <;> rfl
    | c :: cs =>
      match f2, h2 with
      | 0, h2 => simp at h2
      | g2 + 1, h2 =>
        rcases hm : matchSelfClose (c :: cs) with _ | ⟨t, rest⟩
        · simp only [scanSelfCloseF, hm]
          simp only [List.length_cons] at h1 h2
          exact ih g2 cs (by omega) (by omega)
        · simp only [scanSelfCloseF, hm]
          have hlen := matchSelfClose_length _ _ _ hm
          simp only [List.length_cons] at h1 h2 hlen
          rw [ih g2 rest (by omega) (by omega)]

lemma scanValuedF_fuel : ∀ (f1 f2 : Nat) (l : List Char),
    l.length ≤ f1 → l.length ≤ f2 →
    scanValuedF f1 l = scanValuedF f2 l := by
  intro f1
  induction f1 with
  | zero =>
    intro f2 l h1 _
    match l, h1 with
    | [], _ => cases f2 <;> rfl
  | succ g1 ih =>
    intro f2 l h1 h2
    match l with
    | [] => cases f2 <;> rfl
    | c :: cs =>
      match f2, h2 with
      | 0, h2 => simp at h2
      | g2 + 1, h2 =>
        rcases hm : matchValued (c :: cs) with _ | ⟨m, rest⟩
        · simp only [scanValuedF, hm]
          simp only [List.length_cons] at h1 h2
          exact ih g2 cs (by omega) (by omega)
        · simp only [scanValuedF, hm]
          have hlen := matchValued_length _ _ _ hm
          simp only [List.length_cons] at h1 h2 hlen
          rw [ih g2 rest (by omega) (by omega)]

lemma splitTilesF_fuel : ∀ (f1 f2 : Nat) (l : List Char),
    l.length ≤ f1 → l.length ≤ f2 →
    splitTilesF f1 l = splitTilesF f2 l := by
  intro f1
  induction f1 with
  | zero =>
    intro f2 l h1 _
    match l, h1 with
    | [], _ => cases f2 <;> rfl
  | succ g1 ih =>
    intro f2 l h1 h2
    match l with
    | [] => cases f2 <;> rfl
    | c :: cs =>
      match f2, h2 with
      | 0, h2 => simp at h2
      | g2 + 1, h2 =>
        rcases hm : matchTileOpen (c :: cs) with _ | ⟨ds, rest⟩
        · simp only [splitTilesF, hm]
          simp only [List.length_cons] at h1 h2
          rw [ih g2 cs (by omega) (by omega)]
        · simp only [splitTilesF, hm]
          have hlen := matchTileOpen_length _ _ _ hm
          simp only [List.length_cons] at h1 h2 hlen
          rw [ih g2 rest (by omega) (by omega)]

/-- Unfolding: a successful match at the head. -/
lemma scanSelfClose_cons_match (c : Char) (cs t rest : List Char)
    (h : matchSelfClose (c :: cs) = some (t, rest)) :
    scanSelfClose (c :: cs) = t :: scanSelfClose rest := by
  have hlen := matchSelfClose_length _ _ _ h
  simp only [List.length_cons] at hlen
  simp only [scanSelfClose, List.length_cons, scanSelfCloseF, h]
  rw [scanSelfCloseF_fuel cs.length rest.length rest (by omega)
    (le_refl _)]

/-- Unfolding: no match at the head. -/
lemma scanSelfClose_cons_none (c : Char) (cs : List Char)
    (h : matchSelfClose (c :: cs) = none) :
    scanSelfClose (c :: cs) = scanSelfClose cs := by
  simp only [scanSelfClose, List.length_cons, scanSelfCloseF, h]

lemma scanValued_cons_match (c : Char) (cs : List Char)
    (m : List Char × List Char × List Char) (rest : List Char)
    (h : matchValued (c :: cs) = some (m, rest)) :
    scanValued (c :: cs) = m :: scanValued rest := by
  have hlen := matchValued_length _ _ _ h
  simp only [List.length_cons] at hlen
  simp only [scanValued, List.length_cons, scanValuedF, h]
  rw [scanValuedF_fuel cs.length rest.length rest (by omega)
    (le_refl _)]

lemma scanValued_cons_none (c : Char) (cs : List Char)
    (h : matchValued (c :: cs) = none) :
    scanValued (c :: cs) = scanValued cs := by
  simp only [scanValued, List.length_cons, scanValuedF, h]

/-- One attempted match of `MapWidth="(\d+)"` at the head of the
input. -/
def matchMapWidth (l : List Char) : Option (List Char) :=
  if "MapWidth=\"".data.isPrefixOf l then
    let r := l.drop 10
    let ds := r.takeWhile Char.isDigit
    if ds = [] then none
    else
      match r.dropWhile Char.isDigit with
      | c :: _ => if c = '"' then some ds else none
      | [] => none
  else none

/-- `re.search` for `MapWidth="(\d+)"`: the leftmost match's digit
group. -/
def searchMapWidth (l : List Char) : Option (List Char) :=
  match l with
  | [] => none
  | c :: cs =>
    match matchMapWidth (c :: cs) with
    | some ds => some ds
    | none => searchMapWidth cs

/-- `block.split('</Tile>')[0]`: the text before the first close tag
(the whole text when there is none). -/
def takeUntilCloseTile (l : List Char) : List Char :=
  match l with
  | [] => []
  | c :: cs =>
    if "</Tile>".data.isPrefixOf (c :: cs) then []
    else c :: takeUntilCloseTile cs

/-- `int(...)` on a digit group. -/
def digitsToNat (ds : List Char) : Nat :=
  ds.foldl (fun n c => n * 10 + (c.toNat - 48)) 0

/-- The two field-collection loops of `parse_frozen_terrain` over one
tile block: every self-closing match becomes a flag entry, then every
valued match whose opening and closing tags agree becomes a valued
entry. -/
def parse_fields (block : List Char) : List (String × Option String) :=
  (scanSelfClose block).map (fun t => (String.mk t, none)) ++
  (scanValued block).filterMap (fun m =>
    if m.1 = m.2.2 then some (String.mk m.1, some (String.mk m.2.1))
    else none)

/-- `parse_frozen_terrain` from `generate_scenario.py`: search the
width declaration (raising — modelled as `Except.error` — when
absent), split on tile openings, and collect each tile's fields from
the text up to its close tag.  `height` is derived as in the source. -/
def parse_frozen_terrain (content : List Char) :
    Except String (Nat × Nat × List (Nat × List (String × Option String))) :=
  match searchMapWidth content with
  | none => .error "No MapWidth found"
  | some ds =>
    let width := digitsToNat ds
    let tiles := (splitTiles content).2.map (fun p =>
      (digitsToNat p.1, parse_fields (takeUntilCloseTile p.2)))
    let height := tiles.length / width
    .ok (width, height, tiles)

/-- `write_terrain` from `insert_rows.py` (the serializer shared with
`write_frozen_xml` in `freeze_terrain.py`), as the joined document
text. -/
def write_terrain_lines (width : Nat)
    (tiles : List (Nat × List (String × Option String))) :
    List String :=
  ["<?xml version=\"1.0\" encoding=\"utf-8\"?>",
   "<Root MapWidth=\"" ++ toString width ++ "\">"] ++
  tiles.flatMap (fun t =>
    ["  <Tile", "    ID=\"" ++ toString t.1 ++ "\">"] ++
    t.2.map (fun fv =>
      match fv.2 with
      | none => "    <" ++ fv.1 ++ " />"
      | some v => "    <" ++ fv.1 ++ ">" ++ v ++ "</" ++ fv.1 ++ ">") ++
    ["  </Tile>"]) ++
  ["</Root>", ""]

def write_terrain (width : Nat)
    (tiles : List (Nat × List (String × Option String))) : List Char :=
  (String.intercalate "\n" (write_terrain_lines width tiles)).data

/-- C9 (amended): parsing fails exactly on a missing width
declaration; a malformed tile block is NOT rejected. -/
theorem parse_width_missing (content : List Char)
    (h : searchMapWidth content = none) :
    parse_frozen_terrain content = .error "No MapWidth found" := by
  unfold parse_frozen_terrain
  rw [h]

theorem parse_width_missing_witness :
    searchMapWidth "<Root></Root>".data = none ∧
    parse_frozen_terrain "<Root></Root>".data
      = .error "No MapWidth found" :=
  ⟨by decide, parse_width_missing "<Root></Root>".data (by decide)⟩

/-- A document whose second tile block has a non-numeric ID. -/
def docBad : List Char :=
  ("<?xml version=\"1.0\" encoding=\"utf-8\"?>\n" ++
   "<Root MapWidth=\"23\">\n" ++
   "  <Tile\n    ID=\"0\">\n    <Terrain>T</Terrain>\n  </Tile>\n" ++
   "  <Tile\n    ID=\"abc\">\n    <Height>H</Height>\n  </Tile>\n" ++
   "</Root>\n").data

set_option maxRecDepth 8000

/-- C9 (counterexample to the claim as stated): the malformed second
tile block does not make parsing fail — the parse succeeds and the
malformed block is silently dropped (only tile 0 survives). -/
theorem parse_malformed_counterexample :
    parse_frozen_terrain docBad
      = .ok (23, 0, [(0, [("Terrain", some "T")])]) := by
  rfl

/-- C2 (counterexample to the claim as stated): a record interleaving a
valued tag before a flag tag is reordered by parsing (all flags are
collected before all valued tags), so serializing the parse result does
not reproduce the document. -/
theorem parse_order_counterexample :
    parse_frozen_terrain
        (write_terrain 1 [(0, [("A", some "1"), ("B", none)])])
      = .ok (1, 1, [(0, [("B", none), ("A", some "1")])]) ∧
    write_terrain 1 [(0, [("B", none), ("A", some "1")])] ≠
      write_terrain 1 [(0, [("A", some "1"), ("B", none)])] := by
  constructor
  · rfl
  · decide

/-! ### Field-order characterization of the parser -/

/-- Well-formed tile-record field: a non-empty word-character tag, and
a value (when present) free of `<`. -/
def wfField (fv : String × Option String) : Prop :=
  fv.1.data ≠ [] ∧ (∀ c ∈ fv.1.data, wordChar c = true) ∧
  (match fv.2 with
   | some v => '<' ∉ v.data
   | none => True)

/-- Serialized characters of a flag tag `<t />` (without indent). -/
def flagChars (t : List Char) : List Char :=
  '<' :: (t ++ [' ', '/', '>'])

/-- Serialized characters of a valued tag `<t>v</t>` (without
indent). -/
def valuedChars (t v : List Char) : List Char :=
  '<' :: (t ++ '>' :: (v ++ '<' :: '/' :: (t ++ ['>'])))

/-- Characters of one serialized field line (with the 4-space
indent). -/
def fieldChars (fv : String × Option String) : List Char :=
  match fv.2 with
  | none => "    ".data ++ flagChars fv.1.data
  | some v => "    ".data ++ valuedChars fv.1.data v.data

/-- The text of one tile block between `ID="n">` and `</Tile>` as the
serializer renders it: a newline, the field line, repeated; then the
newline and indent of the closing line. -/
def blockText (fields : List (String × Option String)) : List Char :=
  fields.flatMap (fun fv => '\n' :: fieldChars fv) ++ "\n  ".data

lemma takeWhile_append_of {α : Type} (p : α → Bool) (a b : List α)
    (ha : ∀ c ∈ a, p c = true)
    (hb : ∀ c, b.head? = some c → p c = false) :
    (a ++ b).takeWhile p = a ∧ (a ++ b).dropWhile p = b := by
  induction a with
  | nil =>
    cases b with
    | nil => simp
    | cons c cs =>
      have := hb c rfl
      simp [List.takeWhile_cons, List.dropWhile_cons, this]
  | cons x xs ih =>
    have hx := ha x (by simp)
    have h := ih (fun c hc => ha c (List.mem_cons_of_mem _ hc))
    simp [List.takeWhile_cons, List.dropWhile_cons, hx, h.1, h.2]

lemma wordChar_ne_lt {c : Char} (h : wordChar c = true) : c ≠ '<' := by
  intro he
  subst he
  simp [wordChar] at h

lemma matchSelfClose_none_of_ne (c : Char) (cs : List Char)
    (h : c ≠ '<') : matchSelfClose (c :: cs) = none := by
  simp [matchSelfClose, h]

lemma matchValued_none_of_ne (c : Char) (cs : List Char)
    (h : c ≠ '<') : matchValued (c :: cs) = none := by
  simp [matchValued, h]

lemma scanSC_skip (l rest : List Char) (h : '<' ∉ l) :
    scanSelfClose (l ++ rest) = scanSelfClose rest := by
  induction l with
  | nil => simp
  | cons c cs ih =>
    have hc : c ≠ '<' := fun he => h (he ▸ List.mem_cons_self c cs)
    rw [List.cons_append,
      scanSelfClose_cons_none _ _ (matchSelfClose_none_of_ne _ _ hc)]
    exact ih (fun hm => h (List.mem_cons_of_mem _ hm))

lemma scanV_skip (l rest : List Char) (h : '<' ∉ l) :
    scanValued (l ++ rest) = scanValued rest := by
  induction l with
  | nil => simp
  | cons c cs ih =>
    have hc : c ≠ '<' := fun he => h (he ▸ List.mem_cons_self c cs)
    rw [List.cons_append,
      scanValued_cons_none _ _ (matchValued_none_of_ne _ _ hc)]
    exact ih (fun hm => h (List.mem_cons_of_mem _ hm))

lemma matchSelfClose_flag (t rest : List Char) (htne : t ≠ [])
    (ht : ∀ c ∈ t, wordChar c = true) :
    matchSelfClose ('<' :: (t ++ (' ' :: '/' :: '>' :: rest)))
      = some (t, rest) := by
  have h1 := takeWhile_append_of wordChar t (' ' :: '/' :: '>' :: rest)
    ht (by intro c hc; cases hc; decide)
  simp only [matchSelfClose, if_pos rfl, h1.1, h1.2]
  rw [if_neg htne]
  have h2 : (' ' :: '/' :: '>' :: rest).dropWhile spaceChar
      = '/' :: '>' :: rest := by
    simp [List.dropWhile_cons, spaceChar]
  rw [h2]
  simp

lemma matchValued_flag (t rest : List Char) (htne : t ≠ [])
    (ht : ∀ c ∈ t, wordChar c = true) :
    matchValued ('<' :: (t ++ (' ' :: '/' :: '>' :: rest))) = none := by
  have h1 := takeWhile_append_of wordChar t (' ' :: '/' :: '>' :: rest)
    ht (by intro c hc; cases hc; decide)
  simp only [matchValued, if_pos rfl, h1.1, h1.2]
  rw [if_neg htne]
  simp

lemma matchSelfClose_valued (t v rest : List Char) (htne : t ≠ [])
    (ht : ∀ c ∈ t, wordChar c = true) :
    matchSelfClose ('<' :: (t ++ ('>' ::
      (v ++ '<' :: '/' :: (t ++ ('>' :: rest)))))) = none := by
  have h1 := takeWhile_append_of wordChar t
    ('>' :: (v ++ '<' :: '/' :: (t ++ ('>' :: rest)))) ht
    (by intro c hc; cases hc; decide)
  simp only [matchSelfClose, if_pos rfl, h1.1, h1.2]
  rw [if_neg htne]
  have h2 : ('>' :: (v ++ '<' :: '/' :: (t ++ ('>' :: rest)))).dropWhile
      spaceChar = '>' :: (v ++ '<' :: '/' :: (t ++ ('>' :: rest))) := by
    simp [List.dropWhile_cons, spaceChar]
  rw [h2]
  rcases v with _ | ⟨v0, vs⟩ <;> simp

lemma matchValued_valued (t v rest : List Char) (htne : t ≠ [])
    (ht : ∀ c ∈ t, wordChar c = true) (hv : '<' ∉ v) :
    matchValued ('<' :: (t ++ ('>' ::
      (v ++ '<' :: '/' :: (t ++ ('>' :: rest))))))
      = some ((t, v, t), rest) := by
  have h1 := takeWhile_append_of wordChar t
    ('>' :: (v ++ '<' :: '/' :: (t ++ ('>' :: rest)))) ht
    (by intro c hc; cases hc; decide)
  simp only [matchValued, if_pos rfl, h1.1, h1.2]
  rw [if_neg htne]
  have h2 := takeWhile_append_of (fun ch => decide (ch ≠ '<')) v
    ('<' :: '/' :: (t ++ ('>' :: rest)))
    (by
      intro c hc
      simp only [decide_eq_true_eq]
      intro he
      subst he
      exact hv hc)
    (by intro c hc; cases hc; simp)
  have h3 := takeWhile_append_of wordChar t ('>' :: rest) ht
    (by intro c hc; cases hc; decide)
  simp only [if_pos rfl, h2.1, h2.2, h3.1, h3.2]
  rw [if_neg htne]
  simp

lemma scanSC_flag (t rest : List Char) (htne : t ≠ [])
    (ht : ∀ c ∈ t, wordChar c = true) :
    scanSelfClose (flagChars t ++ rest) = t :: scanSelfClose rest := by
  have hsh : flagChars t ++ rest
      = '<' :: (t ++ (' ' :: '/' :: '>' :: rest)) := by
    simp [flagChars]
  rw [hsh,
    scanSelfClose_cons_match _ _ _ _ (matchSelfClose_flag t rest htne ht)]

lemma scanSC_valued (t v rest : List Char) (htne : t ≠ [])
    (ht : ∀ c ∈ t, wordChar c = true) (hv : '<' ∉ v) :
    scanSelfClose (valuedChars t v ++ rest) = scanSelfClose rest := by
  have hnt : '<' ∉ t := fun hm => wordChar_ne_lt (ht _ hm) rfl
  have hsh : valuedChars t v ++ rest
      = '<' :: (t ++ ('>' :: (v ++ '<' :: '/' :: (t ++ ('>' :: rest)))))
      := by simp [valuedChars]
  rw [hsh, scanSelfClose_cons_none _ _
    (matchSelfClose_valued t v rest htne ht)]
  have h1 : t ++ ('>' :: (v ++ '<' :: '/' :: (t ++ ('>' :: rest))))
      = (t ++ '>' :: v) ++ ('<' :: ('/' :: (t ++ ('>' :: rest)))) := by
    simp
  rw [h1, scanSC_skip _ _ (by
    intro hm
    rcases List.mem_append.mp hm with hm | hm
    · exact hnt hm
    · rcases List.mem_cons.mp hm with hm | hm
      · exact absurd hm (by decide)
      · exact hv hm)]
  have hm2 : matchSelfClose ('<' :: ('/' :: (t ++ ('>' :: rest))))
      = none := by
    have hw : wordChar '/' = false := by decide
    simp [matchSelfClose, List.takeWhile_cons, hw]
  rw [scanSelfClose_cons_none _ _ hm2]
  have h2 : '/' :: (t ++ ('>' :: rest)) = ('/' :: (t ++ ['>'])) ++ rest
      := by simp
  rw [h2, scanSC_skip _ _ (by
    intro hm
    rcases List.mem_cons.mp hm with hm | hm
    · exact absurd hm (by decide)
    · rcases List.mem_append.mp hm with hm | hm
      · exact hnt hm
      · simp at hm)]

lemma scanV_flag (t rest : List Char) (htne : t ≠ [])
    (ht : ∀ c ∈ t, wordChar c = true) :
    scanValued (flagChars t ++ rest) = scanValued rest := by
  have hnl : '<' ∉ t := fun hm => wordChar_ne_lt (ht _ hm) rfl
  have hsh : flagChars t ++ rest
      = '<' :: (t ++ (' ' :: '/' :: '>' :: rest)) := by
    simp [flagChars]
  rw [hsh, scanValued_cons_none _ _ (matchValued_flag t rest htne ht)]
  have h1 : t ++ (' ' :: '/' :: '>' :: rest)
      = (t ++ [' ', '/', '>']) ++ rest := by simp
  rw [h1, scanV_skip _ _ (by
    intro hm
    rcases List.mem_append.mp hm with hm | hm
    · exact hnl hm
    · simp at hm)]

lemma scanV_valued (t v rest : List Char) (htne : t ≠ [])
    (ht : ∀ c ∈ t, wordChar c = true) (hv : '<' ∉ v) :
    scanValued (valuedChars t v ++ rest)
      = (t, v, t) :: scanValued rest := by
  have hsh : valuedChars t v ++ rest
      = '<' :: (t ++ ('>' :: (v ++ '<' :: '/' :: (t ++ ('>' :: rest)))))
      := by simp [valuedChars]
  rw [hsh, scanValued_cons_match _ _ _ _
    (matchValued_valued t v rest htne ht hv)]

lemma mk_data (s : String) : String.mk s.data = s := rfl

lemma scanSC_chunk (fields : List (String × Option String))
    (rest : List Char) (hwf : ∀ fv ∈ fields, wfField fv) :
    scanSelfClose (fields.flatMap (fun fv => '\n' :: fieldChars fv)
        ++ rest)
      = fields.filterMap (fun fv =>
          match fv.2 with
          | none => some fv.1.data
          | some _ => none) ++ scanSelfClose rest := by
  induction fields with
  | nil => simp
  | cons fv fs ih =>
    obtain ⟨tag, value⟩ := fv
    obtain ⟨htne, ht, hval⟩ := hwf (tag, value) (by simp)
    have hfs := fun fv h => hwf fv (List.mem_cons_of_mem _ h)
    cases value with
    | none =>
      have harg : (((tag, (none : Option String)) :: fs).flatMap
            (fun fv => '\n' :: fieldChars fv)) ++ rest
          = ['\n', ' ', ' ', ' ', ' '] ++ (flagChars tag.data ++
            (fs.flatMap (fun fv => '\n' :: fieldChars fv) ++ rest)) := by
        simp [fieldChars]
      rw [harg, scanSC_skip _ _ (by decide),
        scanSC_flag _ _ htne ht, ih hfs]
      simp [List.filterMap_cons]
    | some v =>
      have harg : (((tag, some v) :: fs).flatMap
            (fun fv => '\n' :: fieldChars fv)) ++ rest
          = ['\n', ' ', ' ', ' ', ' '] ++ (valuedChars tag.data v.data ++
            (fs.flatMap (fun fv => '\n' :: fieldChars fv) ++ rest)) := by
        simp [fieldChars]
      rw [harg, scanSC_skip _ _ (by decide),
        scanSC_valued _ _ _ htne ht hval, ih hfs]
      simp [List.filterMap_cons]

lemma scanV_chunk (fields : List (String × Option String))
    (rest : List Char) (hwf : ∀ fv ∈ fields, wfField fv) :
    scanValued (fields.flatMap (fun fv => '\n' :: fieldChars fv)
        ++ rest)
      = fields.filterMap (fun fv =>
          match fv.2 with
          | none => none
          | some v => some (fv.1.data, v.data, fv.1.data))
        ++ scanValued rest := by
  induction fields with
  | nil => simp
  | cons fv fs ih =>
    obtain ⟨tag, value⟩ := fv
    obtain ⟨htne, ht, hval⟩ := hwf (tag, value) (by simp)
    have hfs := fun fv h => hwf fv (List.mem_cons_of_mem _ h)
    cases value with
    | none =>
      have harg : (((tag, (none : Option String)) :: fs).flatMap
            (fun fv => '\n' :: fieldChars fv)) ++ rest
          = ['\n', ' ', ' ', ' ', ' '] ++ (flagChars tag.data ++
            (fs.flatMap (fun fv => '\n' :: fieldChars fv) ++ rest)) := by
        simp [fieldChars]
      rw [harg, scanV_skip _ _ (by decide),
        scanV_flag _ _ htne ht, ih hfs]
      simp [List.filterMap_cons]
    | some v =>
      have harg : (((tag, some v) :: fs).flatMap
            (fun fv => '\n' :: fieldChars fv)) ++ rest
          = ['\n', ' ', ' ', ' ', ' '] ++ (valuedChars tag.data v.data ++
            (fs.flatMap (fun fv => '\n' :: fieldChars fv) ++ rest)) := by
        simp [fieldChars]
      rw [harg, scanV_skip _ _ (by decide),
        scanV_valued _ _ _ htne ht hval, ih hfs]
      simp [List.filterMap_cons]

lemma flags_map (fields : List (String × Option String)) :
    (fields.filterMap (fun fv =>
        match fv.2 with
        | none => some fv.1.data
        | some _ => none)).map (fun t => (String.mk t, none))
      = fields.filter (fun fv => fv.2.isNone) := by
  induction fields with
  | nil => rfl
  | cons fv fs ih =>
    obtain ⟨tag, value⟩ := fv
    cases value with
    | none => simp [List.filterMap_cons, List.filter_cons, ih, mk_data]
    | some v => simp [List.filterMap_cons, List.filter_cons, ih]

lemma valued_map (fields : List (String × Option String)) :
    (fields.filterMap (fun fv =>
        match fv.2 with
        | none => none
        | some v => some (fv.1.data, v.data, fv.1.data))).filterMap
      (fun m => if m.1 = m.2.2 then
        some (String.mk m.1, some (String.mk m.2.1)) else none)
      = fields.filter (fun fv => fv.2.isSome) := by
  induction fields with
  | nil => rfl
  | cons fv fs ih =>
    obtain ⟨tag, value⟩ := fv
    cases value with
    | none => simp [List.filterMap_cons, List.filter_cons, ih]
    | some v => simp [List.filterMap_cons, List.filter_cons, ih, mk_data]

/-- C2 (amended): over a well-formed tile block, parsing collects all
self-closing flag entries first (in textual order) and then all valued
entries (in textual order); hence a record in which every flag precedes
every valued tag — and only such a record — round-trips unchanged. -/
theorem parse_fields_order (fields : List (String × Option String))
    (hwf : ∀ fv ∈ fields, wfField fv) :
    parse_fields (blockText fields)
      = fields.filter (fun fv => fv.2.isNone)
        ++ fields.filter (fun fv => fv.2.isSome) ∧
    (fields.filter (fun fv => fv.2.isNone)
        ++ fields.filter (fun fv => fv.2.isSome) = fields →
      parse_fields (blockText fields) = fields) := by
  have hchar : parse_fields (blockText fields)
      = fields.filter (fun fv => fv.2.isNone)
        ++ fields.filter (fun fv => fv.2.isSome) := by
    unfold parse_fields blockText
    rw [scanSC_chunk _ _ hwf, scanV_chunk _ _ hwf]
    have h1 : scanSelfClose "\n  ".data = [] := rfl
    have h2 : scanValued "\n  ".data = [] := rfl
    rw [h1, h2, List.append_nil, List.append_nil, flags_map, valued_map]
  exact ⟨hchar, fun h => by rw [hchar, h]⟩

/-- Witness: the flags-first record `[("B", flag), ("A", "1")]`
round-trips through parsing unchanged. -/
theorem parse_fields_order_witness :
    (∀ fv ∈ ([("B", none), ("A", some "1")] :
        List (String × Option String)), wfField fv) ∧
    parse_fields (blockText [("B", none), ("A", some "1")])
      = [("B", none), ("A", some "1")] := by
  have hwf : ∀ fv ∈ ([("B", none), ("A", some "1")] :
      List (String × Option String)), wfField fv := by
    intro fv hfv
    rcases List.mem_cons.mp hfv with rfl | hfv
    · exact ⟨by decide, by decide, trivial⟩
    · rcases List.mem_cons.mp hfv with rfl | hfv
      · exact ⟨by decide, by decide, by decide⟩
      · simp at hfv
  exact ⟨hwf, (parse_fields_order _ hwf).2 (by decide)⟩

end GallicWars
